import Mathlib

/-!
# sqlite-lmdb-wrapper: key-value operations over a relational engine

A shallow embedding of `sqlite-lmdb-wrapper/impl.cpp`.  The wrapper drives the
relational engine through the prepare / bind / step / finalize calls of its C
interface; every such call can fail.  The engine is an external collaborator,
so it is modelled here:

* a connection (`sqlite3`) holds the tables, the `_entry_counts` ledger, the
  change counter read by `sqlite3_changes`, a script of injected result codes
  (one entry consumed per call, an entry that is not an error code means the
  call runs normally) and a log of the calls made;
* a statement (`sqlite3_stmt`) holds which of the wrapper's query texts it was
  prepared from, the parameters bound so far and the current result row.

Byte strings are lists of naturals.  The engine keeps what the bind calls
give it:

* a parameter bound through a null pointer is NULL, one bound with
  `sqlite3_bind_text` is a TEXT and one bound with `sqlite3_bind_blob` a BLOB,
  of exactly the bytes counted in the call;
* a parameter that stands for a table (`FROM ?`, `INTO ?`, `UPDATE ?`) names
  the table by its C string, the bytes before the first NUL;
* the cells of a backing table are BLOBs (the columns are `NOT NULL` and the
  wrapper writes them with `sqlite3_bind_blob` only); a cell equals a
  parameter only when the parameter is a BLOB of the same bytes, never a TEXT
  and never NULL;
* the `table` cells of `_entry_counts` are TEXT and equal a TEXT parameter
  only when all bytes, a bound terminator included, are the same.

A `SELECT` returns the first matching row in scan order, which is insertion
order.  The ledger arithmetic `count + ?` is exact integer addition.  The
`_entry_counts` table itself exists (`mdb_env_open` creates it).
-/

namespace SqliteLmdb

abbrev Bytes := List Nat

/-! ## Result codes -/

def SQLITE_OK : Int := 0
def SQLITE_ERROR : Int := 1
def SQLITE_NOTFOUND : Int := 12
def SQLITE_CONSTRAINT : Int := 19
def SQLITE_MISMATCH : Int := 20
def SQLITE_MISUSE : Int := 21
def SQLITE_ROW : Int := 100
def SQLITE_DONE : Int := 101
/-- The value of `EACCES` in `errno.h`. -/
def EACCES : Int := 13

/-! ## The relational engine -/

structure Row where
  rowid : Int
  key : Bytes
  value : Bytes
  deriving DecidableEq, Repr

/-- A backing table `(key, value)` of BLOB cells; `uniq` is the `UNIQUE`
constraint on `key` chosen when the table was created.  Rows are kept in scan
order. -/
structure Table where
  uniq : Bool
  rows : List Row
  deriving DecidableEq, Repr

inductive SqlValue where
  | null
  | text (b : Bytes)
  | blob (b : Bytes)
  | int64 (i : Int)
  deriving DecidableEq, Repr

/-- The query texts that occur in `impl.cpp`. -/
inductive Query where
  /-- `CREATE TABLE IF NOT EXISTS ? (key NOT NULL [UNIQUE] BLOB, value NOT NULL BLOB);` -/
  | create_table (uniq : Bool)
  /-- `INSERT OR IGNORE INTO _entry_counts (table, count) VALUES (?, 0);` -/
  | insert_entry_count
  /-- `SELECT value FROM ? WHERE key = ? ORDER BY key ASC LIMIT 1;` -/
  | select_value
  /-- `UPDATE _entry_counts SET count = count + ? WHERE table = ?;` -/
  | update_entry_count
  /-- `SELECT ROWID FROM ? WHERE key = ?;` -/
  | select_rowid
  /-- `UPDATE ? SET value = ? WHERE ROWID = ?;` -/
  | update_value
  /-- `INSERT INTO ? (key, value) VALUES (?, ?);` -/
  | insert_row
  /-- `DELETE FROM ? WHERE key = ? AND value = ?;` -/
  | delete_key_value
  /-- `DELETE FROM ? WHERE key = ?;` -/
  | delete_key
  deriving DecidableEq, Repr

inductive Api where
  | exec
  | prepare
  | bind
  | step
  | finalize
  deriving DecidableEq, Repr

/-- One logged engine call: which call, on a statement of which query (`none`
for a null statement), the code it returned and `sqlite3_changes` after it. -/
structure Call where
  api : Api
  query : Option Query
  code : Int
  changes : Nat
  deriving DecidableEq, Repr

structure sqlite3 where
  tables : Bytes → Option Table
  counts : Bytes → Option Int
  changes : Nat
  faults : List Int
  log : List Call

structure sqlite3_stmt where
  query : Query
  args : Nat → Option SqlValue
  row : List SqlValue

def isError (c : Int) : Bool :=
  c != 0 && c != SQLITE_ROW && c != SQLITE_DONE

/-- The error code injected into the next engine call, `0` when it runs normally. -/
def sqlite3.pending (db : sqlite3) : Int :=
  match db.faults with
  | [] => 0
  | c :: _ => if isError c then c else 0

/-- Consume one script entry and log the call. -/
def sqlite3.record (db : sqlite3) (e : Call) : sqlite3 :=
  { db with faults := db.faults.tail, log := db.log ++ [e] }

/-- What `sqlite3_bind_text` binds: NULL for a null pointer. -/
def SqlValue.ofText : Option Bytes → SqlValue
  | some b => .text b
  | none => .null

/-- What `sqlite3_bind_blob` binds: NULL for a null pointer. -/
def SqlValue.ofBlob : Option Bytes → SqlValue
  | some b => .blob b
  | none => .null

def SqlValue.asBlob : SqlValue → Option Bytes
  | .blob b => some b
  | _ => none

/-- The C string at a pointer: the bytes before the first NUL. -/
def cstr (b : Bytes) : Bytes := b.takeWhile (fun x => x != 0)

/-- The value of parameter `i`; a parameter never bound is NULL. -/
def argValue (a : Nat → Option SqlValue) (i : Nat) : SqlValue :=
  (a i).getD .null

/-- The table that parameter `i`, a TEXT, names: its C string. -/
def argTable (a : Nat → Option SqlValue) (i : Nat) : Option Bytes :=
  match a i with
  | some (.text b) => some (cstr b)
  | _ => none

/-- The bytes of parameter `i` when it is a TEXT. -/
def argText (a : Nat → Option SqlValue) (i : Nat) : Option Bytes :=
  match a i with
  | some (.text b) => some b
  | _ => none

def argInt (a : Nat → Option SqlValue) (i : Nat) : Option Int :=
  match a i with
  | some (.int64 n) => some n
  | _ => none

/-- The comparison `cell = ?` for a BLOB cell: true only for a BLOB parameter
of the same bytes; a TEXT parameter is never equal to a BLOB, and NULL is
equal to nothing. -/
def cellEq (v : SqlValue) (cell : Bytes) : Bool :=
  match v with
  | .blob b => cell = b
  | _ => false

/-- The code for a value that a row of a backing table does not take.  The
wrapper binds the key and the value with `sqlite3_bind_blob` only, so that the
value is a BLOB or, from a null pointer, NULL, which the `NOT NULL` columns
refuse with `SQLITE_CONSTRAINT`.  A value of another class reaches the engine
in no call of the wrapper; rows hold BLOB cells only, and the model answers
`SQLITE_MISMATCH` for it. -/
def refusal (v : SqlValue) : Int :=
  if v = .null then SQLITE_CONSTRAINT else SQLITE_MISMATCH

def setTable (ts : Bytes → Option Table) (name : Bytes) (t : Table) : Bytes → Option Table :=
  fun n => if n = name then some t else ts n

def setCount (cs : Bytes → Option Int) (name : Bytes) (c : Int) : Bytes → Option Int :=
  fun n => if n = name then some c else cs n

/-- The rowid given to an inserted row: one more than the largest in use. -/
def nextRowid (rows : List Row) : Int :=
  rows.foldl (fun m r => max m r.rowid) 0 + 1

/-- What executing a statement yields: result code, result row, and the store. -/
structure Outcome where
  code : Int
  row : List SqlValue
  tables : Bytes → Option Table
  counts : Bytes → Option Int
  changes : Nat

/-- Executing a prepared statement with its bound parameters.  A statement on
a table that does not exist, or whose table or integer parameter is missing,
fails with `SQLITE_ERROR` and changes nothing. -/
def exec (q : Query) (a : Nat → Option SqlValue) (tables : Bytes → Option Table)
    (counts : Bytes → Option Int) (changes : Nat) : Outcome :=
  let same (c : Int) : Outcome := ⟨c, [], tables, counts, changes⟩
  match q with
  | .create_table uniq =>
    match argTable a 1 with
    | some name =>
      match tables name with
      | some _ => same SQLITE_DONE
      | none => ⟨SQLITE_DONE, [], setTable tables name ⟨uniq, []⟩, counts, changes⟩
    | none => same SQLITE_ERROR
  | .insert_entry_count =>
    match argText a 1 with
    | some name =>
      match counts name with
      | some _ => ⟨SQLITE_DONE, [], tables, counts, 0⟩
      | none => ⟨SQLITE_DONE, [], tables, setCount counts name 0, 1⟩
    | none => same SQLITE_ERROR
  | .select_value =>
    match argTable a 1 with
    | some name =>
      match tables name with
      | some t =>
        match t.rows.find? (fun r => cellEq (argValue a 2) r.key) with
        | some r => ⟨SQLITE_ROW, [.blob r.value], tables, counts, changes⟩
        | none => same SQLITE_DONE
      | none => same SQLITE_ERROR
    | none => same SQLITE_ERROR
  | .update_entry_count =>
    match argInt a 1, argText a 2 with
    | some delta, some name =>
      match counts name with
      | some c => ⟨SQLITE_DONE, [], tables, setCount counts name (c + delta), 1⟩
      | none => ⟨SQLITE_DONE, [], tables, counts, 0⟩
    | _, _ => same SQLITE_ERROR
  | .select_rowid =>
    match argTable a 1 with
    | some name =>
      match tables name with
      | some t =>
        match t.rows.find? (fun r => cellEq (argValue a 2) r.key) with
        | some r => ⟨SQLITE_ROW, [.int64 r.rowid], tables, counts, changes⟩
        | none => same SQLITE_DONE
      | none => same SQLITE_ERROR
    | none => same SQLITE_ERROR
  | .update_value =>
    match argTable a 1, argInt a 3 with
    | some name, some rowid =>
      match tables name with
      | some t =>
        match (argValue a 2).asBlob with
        | some value =>
          ⟨SQLITE_DONE, [],
            setTable tables name
              ⟨t.uniq, t.rows.map (fun r => if r.rowid = rowid then { r with value := value } else r)⟩,
            counts, (t.rows.filter (fun r => r.rowid = rowid)).length⟩
        | none =>
          if (t.rows.filter (fun r => r.rowid = rowid)).length = 0 then
            ⟨SQLITE_DONE, [], tables, counts, 0⟩
          else same (refusal (argValue a 2))
      | none => same SQLITE_ERROR
    | _, _ => same SQLITE_ERROR
  | .insert_row =>
    match argTable a 1 with
    | some name =>
      match tables name with
      | some t =>
        match (argValue a 2).asBlob, (argValue a 3).asBlob with
        | some key, some value =>
          if t.uniq ∧ (t.rows.find? (fun r => r.key = key)).isSome then same SQLITE_CONSTRAINT
          else ⟨SQLITE_DONE, [],
            setTable tables name ⟨t.uniq, t.rows ++ [⟨nextRowid t.rows, key, value⟩]⟩,
            counts, 1⟩
        | none, _ => same (refusal (argValue a 2))
        | some _, none => same (refusal (argValue a 3))
      | none => same SQLITE_ERROR
    | none => same SQLITE_ERROR
  | .delete_key_value =>
    match argTable a 1 with
    | some name =>
      match tables name with
      | some t =>
        ⟨SQLITE_DONE, [],
          setTable tables name
            ⟨t.uniq, t.rows.filter
              (fun r => !(cellEq (argValue a 2) r.key && cellEq (argValue a 3) r.value))⟩,
          counts,
          (t.rows.filter
            (fun r => cellEq (argValue a 2) r.key && cellEq (argValue a 3) r.value)).length⟩
      | none => same SQLITE_ERROR
    | none => same SQLITE_ERROR
  | .delete_key =>
    match argTable a 1 with
    | some name =>
      match tables name with
      | some t =>
        ⟨SQLITE_DONE, [],
          setTable tables name ⟨t.uniq, t.rows.filter (fun r => !cellEq (argValue a 2) r.key)⟩,
          counts, (t.rows.filter (fun r => cellEq (argValue a 2) r.key)).length⟩
      | none => same SQLITE_ERROR
    | none => same SQLITE_ERROR

def sqlite3_prepare_v2 (db : sqlite3) (q : Query) : Int × Option sqlite3_stmt × sqlite3 :=
  let c := db.pending
  let db1 := db.record ⟨.prepare, some q, c, db.changes⟩
  if c = 0 then (0, some ⟨q, fun _ => none, []⟩, db1) else (c, none, db1)

def sqlite3_bind (db : sqlite3) (stmt : Option sqlite3_stmt) (idx : Nat) (v : SqlValue) :
    Int × Option sqlite3_stmt × sqlite3 :=
  match stmt with
  | none => (SQLITE_MISUSE, none, db.record ⟨.bind, none, SQLITE_MISUSE, db.changes⟩)
  | some s =>
    let c := db.pending
    let db1 := db.record ⟨.bind, some s.query, c, db.changes⟩
    if c = 0 then (0, some { s with args := fun i => if i = idx then some v else s.args i }, db1)
    else (c, some s, db1)

/-- `sqlite3_bind_text` of the bytes counted in the call, `none` for a null
pointer. -/
def sqlite3_bind_text (db : sqlite3) (stmt : Option sqlite3_stmt) (idx : Nat)
    (data : Option Bytes) : Int × Option sqlite3_stmt × sqlite3 :=
  sqlite3_bind db stmt idx (.ofText data)

/-- `sqlite3_bind_blob` of the bytes counted in the call, `none` for a null
pointer. -/
def sqlite3_bind_blob (db : sqlite3) (stmt : Option sqlite3_stmt) (idx : Nat)
    (data : Option Bytes) : Int × Option sqlite3_stmt × sqlite3 :=
  sqlite3_bind db stmt idx (.ofBlob data)

def sqlite3_bind_int64 (db : sqlite3) (stmt : Option sqlite3_stmt) (idx : Nat) (n : Int) :
    Int × Option sqlite3_stmt × sqlite3 :=
  sqlite3_bind db stmt idx (.int64 n)

def sqlite3_step (db : sqlite3) (stmt : Option sqlite3_stmt) :
    Int × Option sqlite3_stmt × sqlite3 :=
  match stmt with
  | none => (SQLITE_MISUSE, none, db.record ⟨.step, none, SQLITE_MISUSE, db.changes⟩)
  | some s =>
    let c := db.pending
    if c = 0 then
      let o := exec s.query s.args db.tables db.counts db.changes
      (o.code, some { s with row := o.row },
        ({ db with tables := o.tables, counts := o.counts, changes := o.changes }).record
          ⟨.step, some s.query, o.code, o.changes⟩)
    else (c, some s, db.record ⟨.step, some s.query, c, db.changes⟩)

/-- Finalizing a null statement is a harmless no-op that returns `SQLITE_OK`. -/
def sqlite3_finalize (db : sqlite3) (stmt : Option sqlite3_stmt) : Int × sqlite3 :=
  match stmt with
  | none => (0, { db with log := db.log ++ [⟨.finalize, none, 0, db.changes⟩] })
  | some s =>
    let c := db.pending
    (c, db.record ⟨.finalize, some s.query, c, db.changes⟩)

def sqlite3_changes (db : sqlite3) : Nat := db.changes

/-- `sqlite3_exec` of a statement that does not touch the tables (`PRAGMA
journal_mode=WAL`, `BEGIN ... TRANSACTION`). -/
def sqlite3_exec (db : sqlite3) : Int × sqlite3 :=
  (db.pending, db.record ⟨.exec, none, db.pending, db.changes⟩)

def sqlite3_column_blob (stmt : Option sqlite3_stmt) (i : Nat) : Bytes :=
  match stmt with
  | some s =>
    match s.row.get? i with
    | some (.blob b) => b
    | some (.text b) => b
    | _ => []
  | none => []

def sqlite3_column_bytes (stmt : Option sqlite3_stmt) (i : Nat) : Nat :=
  (sqlite3_column_blob stmt i).length

def sqlite3_column_int64 (stmt : Option sqlite3_stmt) (i : Nat) : Int :=
  match stmt with
  | some s =>
    match s.row.get? i with
    | some (.int64 n) => n
    | _ => 0
  | none => 0

/-! ## The wrapper -/

/-- The running `result` with the statement and the connection. -/
abbrev Res := Int × Option sqlite3_stmt × sqlite3

/-- The guard `if (!result) { result = ...; }` around an engine call. -/
def whenOk (r : Res) (f : sqlite3 → Option sqlite3_stmt → Res) : Res :=
  if r.1 = 0 then f r.2.2 r.2.1 else r

structure MDB_txn where
  db_conn : sqlite3
  mdb_values : List Bytes
  can_write : Bool

/-- The `mv_size` bytes at `mv_data` of an `MDB_val` the caller passes in,
`none` when `mv_data` is a null pointer. -/
abbrev MDB_val := Option Bytes

/-- The handle behind an `MDB_dbi`; `name` is the `std::string` built from the
C string `name_a`, so it holds no NUL. -/
structure MDB_dbi_inner where
  name : Bytes
  dups : Bool
  nul_free : 0 ∉ name

/-- One statement of `mdb_dbi_open` (impl.cpp 182-201 and 205-223): prepare,
bind the `strlen (name_a)` bytes of the name, step, finalize. -/
def mdb_dbi_open_stmt (db : sqlite3) (q : Query) (name_a : Bytes) : Int × sqlite3 :=
  let b := whenOk (sqlite3_prepare_v2 db q)
    (fun d s => sqlite3_bind_text d s 1 (some (cstr name_a)))
  let s := whenOk b sqlite3_step
  let result : Int := if b.1 = 0 then (if s.1 = SQLITE_DONE then 0 else s.1) else b.1
  let cleanup := sqlite3_finalize s.2.2 s.2.1
  (if result = 0 then cleanup.1 else result, cleanup.2)

/-- `mdb_dbi_open` (impl.cpp 171-226); `MDB_DUPSORT` is the flag bit of
`lmdb.h` and `name_a` the bytes at the pointer of that name.  Returns the
code, the transaction and the handle written to `*dbi`. -/
def mdb_dbi_open (MDB_DUPSORT : Nat) (txn : MDB_txn) (name_a : Bytes) (flags : Nat) :
    Int × MDB_txn × MDB_dbi_inner :=
  let dups : Bool := (flags &&& MDB_DUPSORT) = MDB_DUPSORT
  let r1 := mdb_dbi_open_stmt txn.db_conn (.create_table (!dups)) name_a
  let r2 := if r1.1 = 0 then mdb_dbi_open_stmt r1.2 .insert_entry_count name_a else r1
  (r2.1, { txn with db_conn := r2.2 },
    ⟨cstr name_a, dups, fun h => by simpa using (List.mem_takeWhile_imp h)⟩)

/-- `mdb_txn_begin` (impl.cpp 86-140); `MDB_RDONLY` is the flag bit of
`lmdb.h`, `unused_db_connections` the thread-local pool and `opened` what
`sqlite3_open_v2` gives when the pool is empty.  Returns the code, `*txn` and
the pool.  `new MDB_txn ()` starts with `can_write` false. -/
def mdb_txn_begin (MDB_RDONLY : Nat) (unused_db_connections : List sqlite3)
    (opened : Int × sqlite3) (flags : Nat) : Int × MDB_txn × List sqlite3 :=
  let conn : Int × sqlite3 × List sqlite3 :=
    match unused_db_connections.getLast? with
    | some c => (0, c, unused_db_connections.dropLast)
    | none =>
      if opened.1 = 0 then
        let wal := sqlite3_exec opened.2
        (wal.1, wal.2, unused_db_connections)
      else (opened.1, opened.2, unused_db_connections)
  if conn.1 = 0 then
    let read_only : Bool := (flags &&& MDB_RDONLY) = MDB_RDONLY
    let r := sqlite3_exec conn.2.1
    (r.1, ⟨r.2, [], !read_only⟩, conn.2.2)
  else (conn.1, ⟨conn.2.1, [], false⟩, conn.2.2)

/-- `mdb_get` (impl.cpp 331-389); `value` is what `*value` holds before the
call.  The table name is bound with its terminator (`size () + 1` bytes) and
the key as a TEXT.  Returns the code, the transaction and the contents of
`*value`. -/
def mdb_get (txn : MDB_txn) (dbi : MDB_dbi_inner) (key : MDB_val) (value : Bytes) :
    Int × MDB_txn × Bytes :=
  let b := whenOk (whenOk (sqlite3_prepare_v2 txn.db_conn .select_value)
    (fun d s => sqlite3_bind_text d s 1 (some (dbi.name ++ [0]))))
    (fun d s => sqlite3_bind_text d s 2 key)
  let s := whenOk b sqlite3_step
  let found : Bool := b.1 == 0 && s.1 == SQLITE_ROW
  let result : Int :=
    if b.1 = 0 then
      if s.1 = SQLITE_ROW then 0
      else if s.1 = SQLITE_DONE then SQLITE_NOTFOUND
      else s.1
    else b.1
  let mv_size := sqlite3_column_bytes s.2.1 0
  let mv_data := (sqlite3_column_blob s.2.1 0).take mv_size
  let cleanup := sqlite3_finalize s.2.2 s.2.1
  (if result = 0 then cleanup.1 else result,
    { txn with
      db_conn := cleanup.2
      mdb_values := if found then txn.mdb_values ++ [mv_data] else txn.mdb_values },
    if found then mv_data else value)

/-- `add_dbi_entries` (impl.cpp 393-422), on the connection of a writable
transaction; the name is bound with its terminator (`db_name.size () + 1`
bytes). -/
def add_dbi_entries (db : sqlite3) (db_name : Bytes) (delta : Int) : Int × sqlite3 :=
  let b := whenOk (whenOk (sqlite3_prepare_v2 db .update_entry_count)
    (fun d s => sqlite3_bind_int64 d s 1 delta))
    (fun d s => sqlite3_bind_text d s 2 (some (db_name ++ [0])))
  let s := whenOk b sqlite3_step
  let result : Int := if b.1 = 0 then (if s.1 = SQLITE_DONE then 0 else s.1) else b.1
  let cleanup := sqlite3_finalize s.2.2 s.2.1
  (if result = 0 then cleanup.1 else result, cleanup.2)

def increment_dbi_entries (db : sqlite3) (db_name : Bytes) : Int × sqlite3 :=
  add_dbi_entries db db_name 1

def decrement_dbi_entries (db : sqlite3) (db_name : Bytes) : Int × sqlite3 :=
  add_dbi_entries db db_name (-1)

/-- The row lookup of `mdb_put` in a sub-database without duplicates
(impl.cpp 464-492): code, the rowid found, the connection. -/
def mdb_put_select (db : sqlite3) (db_name : Bytes) (key : MDB_val) :
    Int × Option Int × sqlite3 :=
  let b := whenOk (whenOk (sqlite3_prepare_v2 db .select_rowid)
    (fun d s => sqlite3_bind_text d s 1 (some (db_name ++ [0]))))
    (fun d s => sqlite3_bind_blob d s 2 key)
  let s := whenOk b sqlite3_step
  let result : Int :=
    if b.1 = 0 then
      if s.1 = SQLITE_ROW then 0
      else if s.1 = SQLITE_DONE then 0
      else s.1
    else b.1
  let rowid : Option Int :=
    if b.1 = 0 ∧ s.1 = SQLITE_ROW then some (sqlite3_column_int64 s.2.1 0) else none
  let cleanup := sqlite3_finalize s.2.2 s.2.1
  (if result = 0 then cleanup.1 else result, rowid, cleanup.2)

/-- The in-place update of `mdb_put` (impl.cpp 497-518); the statement is
left for the caller to finalize. -/
def mdb_put_update (db : sqlite3) (db_name : Bytes) (value : MDB_val) (rowid : Int) : Res :=
  let b := whenOk (whenOk (whenOk (sqlite3_prepare_v2 db .update_value)
    (fun d s => sqlite3_bind_text d s 1 (some (db_name ++ [0]))))
    (fun d s => sqlite3_bind_blob d s 2 value))
    (fun d s => sqlite3_bind_int64 d s 3 rowid)
  let s := whenOk b sqlite3_step
  let result : Int := if b.1 = 0 then (if s.1 = SQLITE_DONE then 0 else s.1) else b.1
  (result, s.2.1, s.2.2)

/-- The insert of `mdb_put` with its counter update (impl.cpp 523-548); the
statement is left for the caller to finalize. -/
def mdb_put_insert (db : sqlite3) (db_name : Bytes) (key : MDB_val) (value : MDB_val) : Res :=
  let b := whenOk (whenOk (whenOk (sqlite3_prepare_v2 db .insert_row)
    (fun d s => sqlite3_bind_text d s 1 (some (db_name ++ [0]))))
    (fun d s => sqlite3_bind_blob d s 2 key))
    (fun d s => sqlite3_bind_blob d s 3 value)
  let s := whenOk b sqlite3_step
  let result : Int := if b.1 = 0 then (if s.1 = SQLITE_DONE then 0 else s.1) else b.1
  let inc := if result = 0 then increment_dbi_entries s.2.2 db_name else (result, s.2.2)
  (inc.1, s.2.1, inc.2)

/-- `mdb_put` (impl.cpp 435-558). -/
def mdb_put (txn : MDB_txn) (dbi : MDB_dbi_inner) (key : MDB_val) (value : MDB_val)
    (_flags : Nat) : Int × MDB_txn :=
  if !txn.can_write then (EACCES, txn)
  else
    let sel : Int × Option Int × sqlite3 :=
      if !dbi.dups then mdb_put_select txn.db_conn dbi.name key else (0, none, txn.db_conn)
    let w : Res :=
      match sel.2.1 with
      | some rowid =>
        if sel.1 = 0 then mdb_put_update sel.2.2 dbi.name value rowid
        else (sel.1, none, sel.2.2)
      | none =>
        if sel.1 = 0 then mdb_put_insert sel.2.2 dbi.name key value
        else (sel.1, none, sel.2.2)
    let cleanup := sqlite3_finalize w.2.2 w.2.1
    (if w.1 = 0 then cleanup.1 else w.1, { txn with db_conn := cleanup.2 })

/-- The delete statement of `mdb_del`, prepared and bound (impl.cpp 577-593);
`value` is `none` for a null pointer `value`. -/
def mdb_del_stmt (db : sqlite3) (dbi : MDB_dbi_inner) (key : MDB_val)
    (value : Option MDB_val) : Res :=
  let match_value : Bool := dbi.dups && value.isSome
  let b2 := whenOk (whenOk
    (sqlite3_prepare_v2 db (if match_value then .delete_key_value else .delete_key))
    (fun d s => sqlite3_bind_text d s 1 (some (dbi.name ++ [0]))))
    (fun d s => sqlite3_bind_blob d s 2 key)
  if b2.1 = 0 ∧ match_value then sqlite3_bind_blob b2.2.2 b2.2.1 3 (value.getD none) else b2

/-- The delete of `mdb_del` with its counter update (impl.cpp 577-612).  The
statement is left for the caller to finalize. -/
def mdb_del_delete (db : sqlite3) (dbi : MDB_dbi_inner) (key : MDB_val)
    (value : Option MDB_val) : Res :=
  let b := mdb_del_stmt db dbi key value
  let s := whenOk b sqlite3_step
  let result : Int :=
    if b.1 = 0 then
      if s.1 = SQLITE_DONE then
        if sqlite3_changes s.2.2 = 0 then SQLITE_NOTFOUND else 0
      else s.1
    else b.1
  let dec := if result = 0 then decrement_dbi_entries s.2.2 dbi.name else (result, s.2.2)
  (dec.1, s.2.1, dec.2)

/-- `mdb_del` (impl.cpp 560-621). -/
def mdb_del (txn : MDB_txn) (dbi : MDB_dbi_inner) (key : MDB_val) (value : Option MDB_val) :
    Int × MDB_txn :=
  if !txn.can_write then (EACCES, txn)
  else
    let w := mdb_del_delete txn.db_conn dbi key value
    let cleanup := sqlite3_finalize w.2.2 w.2.1
    (if w.1 = 0 then cleanup.1 else w.1, { txn with db_conn := cleanup.2 })


/-! ## Cursors

The cursor code of `impl.cpp` walks an ordered key-value iterator (`Seek`,
`Next`, `Valid`, `key`, `value`, `status`) whose keys start with the two-byte
tag of their sub-database.  The iterator is an external collaborator: it is
modelled as a position in the list of entries in key order. -/

/-- Bytewise lexicographic order on keys. -/
def bytesLt : Bytes → Bytes → Bool
  | [], [] => false
  | [], _ :: _ => true
  | _ :: _, [] => false
  | a :: as, b :: bs => a < b || (a == b && bytesLt as bs)

/-- An iterator: the entries in key order, the position (`none` before any
seek, an index past the end when exhausted) and its status code. -/
structure Iterator where
  entries : List (Bytes × Bytes)
  pos : Option Nat
  status : Int

def Iterator.Valid (it : Iterator) : Bool :=
  match it.pos with
  | some i => i < it.entries.length
  | none => false

/-- Position at the first entry whose key is not below `target`. -/
def Iterator.Seek (it : Iterator) (target : Bytes) : Iterator :=
  { it with pos := some (it.entries.findIdx (fun e => !bytesLt e.1 target)) }

def Iterator.Next (it : Iterator) : Iterator :=
  { it with pos := it.pos.map (· + 1) }

def Iterator.key (it : Iterator) : Bytes :=
  match it.pos with
  | some i => ((it.entries.get? i).map (·.1)).getD []
  | none => []

def Iterator.value (it : Iterator) : Bytes :=
  match it.pos with
  | some i => ((it.entries.get? i).map (·.2)).getD []
  | none => []

/-- The cursor operations `mdb_cursor_get` has a case for; `other` is any
other value of the enumeration, for which the switch does nothing. -/
inductive MDB_cursor_op where
  | MDB_GET_CURRENT
  | MDB_FIRST
  | MDB_SET_RANGE
  | MDB_NEXT
  | MDB_NEXT_DUP
  | other
  deriving DecidableEq, Repr

structure MDB_cursor where
  dbi : Nat
  it : Iterator
  txn : MDB_txn

/-- The tag `*((uint16_t *)key_slice.data ())` of a key (little-endian host). -/
def key_tag (k : Bytes) : Nat :=
  k.headD 0 % 256 + 256 * ((k.drop 1).headD 0 % 256)

/-- The switch of `mdb_cursor_get` (impl.cpp 651-680): `result`,
`args_output` and the iterator.  `dbi_bytes` gives the bytes of
`cursor->dbi` and `namespace_key` is the helper of that name, neither of
which is in the file. -/
def mdb_cursor_get_move (MDB_NOTFOUND : Int) (dbi_bytes : Nat → Bytes)
    (namespace_key : Bytes → Nat → Bytes) (cursor : MDB_cursor) (key : Bytes)
    (op : MDB_cursor_op) : Int × Bool × Iterator :=
  match op with
  | .MDB_GET_CURRENT => (0, true, cursor.it)
  | .MDB_FIRST => (0, true, cursor.it.Seek (dbi_bytes cursor.dbi))
  | .MDB_SET_RANGE => (0, false, cursor.it.Seek (namespace_key key cursor.dbi))
  | .MDB_NEXT =>
    if !cursor.it.Valid then (MDB_NOTFOUND, true, cursor.it) else (0, true, cursor.it.Next)
  | .MDB_NEXT_DUP => (MDB_NOTFOUND, false, cursor.it)
  | .other => (0, false, cursor.it)

/-- `mdb_cursor_get` (impl.cpp 647-725); `MDB_NOTFOUND` and `MDB_CORRUPTED`
are the codes of `lmdb.h`.  Returns the code, the cursor and the contents of
`*key` and `*value`. -/
def mdb_cursor_get (MDB_NOTFOUND MDB_CORRUPTED : Int) (dbi_bytes : Nat → Bytes)
    (namespace_key : Bytes → Nat → Bytes) (cursor : MDB_cursor) (key value : Bytes)
    (op : MDB_cursor_op) : Int × MDB_cursor × Bytes × Bytes :=
  let m := mdb_cursor_get_move MDB_NOTFOUND dbi_bytes namespace_key cursor key op
  let args_output := m.2.1
  let it := m.2.2
  let r : Int × MDB_txn × Bytes × Bytes :=
    if m.1 = 0 then
      if !it.Valid then (MDB_NOTFOUND, cursor.txn, key, value)
      else
        let key_slice := it.key
        let result : Int :=
          if key_slice.length < 2 then MDB_CORRUPTED
          else if key_tag key_slice ≠ cursor.dbi then MDB_NOTFOUND
          else 0
        if result = 0 ∧ args_output then
          let key_data := key_slice.drop 2
          let value_data := it.value
          (result, { cursor.txn with mdb_values := cursor.txn.mdb_values ++ [key_data, value_data] },
            key_data, value_data)
        else (result, cursor.txn, key, value)
    else (m.1, cursor.txn, key, value)
  let result := if r.1 = 0 then it.status else r.1
  (result, { cursor with it := it, txn := r.2.1 }, r.2.2.1, r.2.2.2)

/-! ## Reading the call log -/

/-- The code a logged call contributes to `result`, with the `SQLITE_ROW` and
`SQLITE_DONE` results of a step mapped as the calling code maps them. -/
def mapped (e : Call) : Int :=
  match e.api with
  | .step =>
    match e.query with
    | some .select_value =>
      if e.code = SQLITE_ROW then 0 else if e.code = SQLITE_DONE then SQLITE_NOTFOUND else e.code
    | some .select_rowid =>
      if e.code = SQLITE_ROW then 0 else if e.code = SQLITE_DONE then 0 else e.code
    | some .delete_key_value =>
      if e.code = SQLITE_DONE then (if e.changes = 0 then SQLITE_NOTFOUND else 0) else e.code
    | some .delete_key =>
      if e.code = SQLITE_DONE then (if e.changes = 0 then SQLITE_NOTFOUND else 0) else e.code
    | _ => if e.code = SQLITE_DONE then 0 else e.code
  | _ => e.code

def isFinalize (e : Call) : Bool := e.api = .finalize

/-- The first non-zero mapped code of a trace, `0` when there is none. -/
def firstFailure : List Call → Int
  | [] => 0
  | e :: rest => if mapped e = 0 then firstFailure rest else mapped e

/-- After the first call with a non-zero mapped code only finalize calls follow. -/
def quietAfter : List Call → Bool
  | [] => true
  | e :: rest => if mapped e = 0 then quietAfter rest else rest.all isFinalize

/-- Number of statements a trace prepares successfully. -/
def opens (tr : List Call) : Nat :=
  (tr.filter (fun e => e.api = .prepare ∧ e.code = 0)).length

/-- Number of statements (not null) a trace finalizes. -/
def closes (tr : List Call) : Nat :=
  (tr.filter (fun e => e.api = .finalize ∧ e.query.isSome)).length

/-- A logged call is a row statement (insert, update or delete on a backing
table) whose step completed and changed at least one row. -/
def isRowWrite (e : Call) : Bool :=
  e.api = .step ∧ e.code = SQLITE_DONE ∧ e.changes ≠ 0 ∧
    (e.query = some .insert_row ∨ e.query = some .update_value ∨
      e.query = some .delete_key_value ∨ e.query = some .delete_key)

/-- Some row statement of the trace completed. -/
def wrote (tr : List Call) : Bool := tr.any isRowWrite

/-- The engine injects no error code into any coming call. -/
def Healthy (db : sqlite3) : Prop := ∀ c ∈ db.faults, isError c = false

instance (db : sqlite3) : Decidable (Healthy db) := by
  unfold Healthy
  infer_instance

/-- The second connection holds the same store as the first. -/
def Kept (a b : sqlite3) : Prop :=
  b.tables = a.tables ∧ b.counts = a.counts ∧ b.changes = a.changes

/-- What a prepare-and-bind sequence leaves: code `c`, statement `st`, trace `tr`. -/
def Chain (q : Query) (a : Nat → Option SqlValue) (c : Int) (st : Option sqlite3_stmt)
    (tr : List Call) : Prop :=
  firstFailure tr = c ∧ quietAfter tr = true ∧ closes tr = 0 ∧ wrote tr = false ∧
    opens tr = (if st.isSome then 1 else 0) ∧ (c = 0 → st = some ⟨q, a, []⟩) ∧
    (c ≠ 0 → isError c = true)

/-- What a prepare-and-bind sequence started on `db` has reached in `r`. -/
def ChainRes (db : sqlite3) (q : Query) (a : Nat → Option SqlValue) (r : Res) : Prop :=
  ∃ tr, Kept db r.2.2 ∧ r.2.2.log = db.log ++ tr ∧ (Healthy db → r.1 = 0 ∧ Healthy r.2.2) ∧
    Chain q a r.1 r.2.1 tr

/-- The ledger after `UPDATE _entry_counts SET count = count + delta WHERE
table = name`, for the bytes `name` bound. -/
def bump (cs : Bytes → Option Int) (name : Bytes) (delta : Int) : Bytes → Option Int :=
  match cs name with
  | some c => setCount cs name (c + delta)
  | none => cs

/-- A trace of a whole operation: `rc` is its first non-zero mapped code, only
finalize calls follow that code, and every prepared statement is finalized. -/
def TraceOk (tr : List Call) (rc : Int) : Prop :=
  firstFailure tr = rc ∧ quietAfter tr = true ∧ opens tr = closes tr

/-- The rows `mdb_del` asks the engine to delete: those under `key`, and in a
sub-database with duplicates, when a value is given, only those holding it. -/
def delMatch (dbi : MDB_dbi_inner) (key : MDB_val) (value : Option MDB_val) (r : Row) :
    Bool :=
  if dbi.dups && value.isSome then key = some r.key ∧ value.getD none = some r.value
  else key = some r.key

/-- The engine calls logged on the connection between two states of it. -/
def callsSince (before after : sqlite3) : List Call :=
  after.log.drop before.log.length

/-! ## Sample data -/

/-- A connection with one backing table, named `t`, without the `UNIQUE`
constraint, holding `rows`, and its counter row holding `count`. -/
def sampleDb (rows : List Row) (count : Int) (faults : List Int) : sqlite3 :=
  ⟨fun n => if n = [116] then some ⟨false, rows⟩ else none,
    fun n => if n = [116] then some count else none, 0, faults, []⟩

/-- The same with the `UNIQUE` constraint on `key`. -/
def sampleDbUnique (rows : List Row) (count : Int) (faults : List Int) : sqlite3 :=
  ⟨fun n => if n = [116] then some ⟨true, rows⟩ else none,
    fun n => if n = [116] then some count else none, 0, faults, []⟩

/-- Handle of the table `t` opened with `MDB_DUPSORT`. -/
def dupDbi : MDB_dbi_inner := ⟨[116], true, by decide⟩

/-- Handle of the table `t` opened without `MDB_DUPSORT`. -/
def uniqueDbi : MDB_dbi_inner := ⟨[116], false, by decide⟩

/-- A cursor of sub-database 0 over a store whose only entry belongs to
sub-database 1, standing at `pos`. -/
def sampleCursor (pos : Option Nat) : MDB_cursor :=
  ⟨0, ⟨[([1, 0, 7], [9])], pos, 0⟩, ⟨sampleDb [] 0 [], [], true⟩⟩

/-- The two bytes of a sub-database number, low byte first. -/
def sampleDbiBytes (n : Nat) : Bytes := [n % 256, n / 256 % 256]

/-- A key with the two bytes of its sub-database in front. -/
def sampleNamespaceKey (k : Bytes) (n : Nat) : Bytes := sampleDbiBytes n ++ k

/-- A cursor of sub-database 1 over two of its entries, standing at `pos`. -/
def sampleCursorOwn (pos : Option Nat) : MDB_cursor :=
  ⟨1, ⟨[([1, 0, 7], [9]), ([1, 0, 8], [10])], pos, 0⟩, ⟨sampleDb [] 0 [], [], true⟩⟩


/-! ## Engine lemmas -/

theorem isError_pending (db : sqlite3) (h : db.pending ≠ 0) : isError db.pending = true := by
  unfold sqlite3.pending at *
  split at h
  · exact absurd rfl h
  · split at h
    · simp [*]
    · exact absurd rfl h

theorem isError_ne (c : Int) (h : isError c = true) :
    c ≠ 0 ∧ c ≠ SQLITE_ROW ∧ c ≠ SQLITE_DONE := by
  simpa [isError, and_assoc] using h

@[simp] theorem whenOk_zero (s : Option sqlite3_stmt) (d : sqlite3)
    (f : sqlite3 → Option sqlite3_stmt → Res) : whenOk (0, s, d) f = f d s := by
  simp [whenOk]

theorem whenOk_ne (c : Int) (s : Option sqlite3_stmt) (d : sqlite3)
    (f : sqlite3 → Option sqlite3_stmt → Res) (h : c ≠ 0) : whenOk (c, s, d) f = (c, s, d) := by
  simp [whenOk, h]

theorem Kept.refl (a : sqlite3) : Kept a a := ⟨Eq.refl _, Eq.refl _, Eq.refl _⟩

theorem Kept.trans {a b c : sqlite3} (h1 : Kept a b) (h2 : Kept b c) : Kept a c :=
  ⟨h2.1.trans h1.1, h2.2.1.trans h1.2.1, h2.2.2.trans h1.2.2⟩

theorem Healthy.pending {db : sqlite3} (h : Healthy db) : db.pending = 0 := by
  unfold sqlite3.pending
  split
  · rfl
  · rename_i c rest heq
    have := h c (by simp [heq])
    simp [this]

theorem Healthy.tail {db d : sqlite3} (h : Healthy db) (hd : d.faults = db.faults.tail) :
    Healthy d := by
  intro c hc
  rw [hd] at hc
  exact h c (List.mem_of_mem_tail hc)

theorem Healthy.same {db d : sqlite3} (h : Healthy db) (hd : d.faults = db.faults) :
    Healthy d := by
  intro c hc
  rw [hd] at hc
  exact h c hc

theorem firstFailure_append (a b : List Call) :
    firstFailure (a ++ b) = if firstFailure a = 0 then firstFailure b else firstFailure a := by
  induction a with
  | nil => simp [firstFailure]
  | cons e rest ih =>
    by_cases h : mapped e = 0 <;> simp [firstFailure, h, ih]

theorem quietAfter_append (a b : List Call) :
    quietAfter (a ++ b) =
      if firstFailure a = 0 then quietAfter b else (quietAfter a && b.all isFinalize) := by
  induction a with
  | nil => simp [firstFailure, quietAfter]
  | cons e rest ih =>
    by_cases h : mapped e = 0 <;> simp [firstFailure, quietAfter, h, ih]

theorem opens_append (a b : List Call) : opens (a ++ b) = opens a + opens b := by
  simp [opens]

theorem closes_append (a b : List Call) : closes (a ++ b) = closes a + closes b := by
  simp [closes]

theorem wrote_append (a b : List Call) : wrote (a ++ b) = (wrote a || wrote b) := by
  simp [wrote]

theorem opens_nil : opens [] = 0 := rfl

theorem closes_nil : closes [] = 0 := rfl

theorem wrote_nil : wrote [] = false := rfl

theorem opens_cons (e : Call) (tr : List Call) :
    opens (e :: tr) = (if e.api = .prepare ∧ e.code = 0 then 1 else 0) + opens tr := by
  by_cases h : e.api = .prepare ∧ e.code = 0
  · simp [opens, List.filter_cons, h]; omega
  · simp only [opens, List.filter_cons]
    simp [h]

theorem closes_cons (e : Call) (tr : List Call) :
    closes (e :: tr) = (if e.api = .finalize ∧ e.query.isSome then 1 else 0) + closes tr := by
  by_cases h : e.api = .finalize ∧ e.query.isSome
  · simp [closes, List.filter_cons, h]; omega
  · simp only [closes, List.filter_cons]
    simp [h]

theorem wrote_cons (e : Call) (tr : List Call) : wrote (e :: tr) = (isRowWrite e || wrote tr) := by
  simp [wrote]

/-- The outcome of `sqlite3_prepare_v2`. -/
theorem prepare_cases (db : sqlite3) (q : Query) :
    ∃ c st d, sqlite3_prepare_v2 db q = (c, st, d) ∧ Kept db d ∧
      d.faults = db.faults.tail ∧ d.log = db.log ++ [⟨.prepare, some q, c, db.changes⟩] ∧
      (c = 0 → st = some ⟨q, fun _ => none, []⟩) ∧ (c ≠ 0 → isError c = true ∧ st = none) ∧
      (Healthy db → c = 0) := by
  by_cases h : db.pending = 0
  · refine ⟨0, some ⟨q, fun _ => none, []⟩, db.record ⟨.prepare, some q, 0, db.changes⟩,
      ?_, ⟨rfl, rfl, rfl⟩, rfl, rfl, fun _ => rfl, fun h0 => absurd rfl h0, fun _ => rfl⟩
    simp [sqlite3_prepare_v2, h]
  · refine ⟨db.pending, none, db.record ⟨.prepare, some q, db.pending, db.changes⟩,
      ?_, ⟨rfl, rfl, rfl⟩, rfl, rfl, fun h0 => absurd h0 h,
      fun _ => ⟨isError_pending db h, rfl⟩, fun hh => absurd hh.pending h⟩
    simp [sqlite3_prepare_v2, h]

/-- The outcome of a bind call on a live statement. -/
theorem bind_cases (db : sqlite3) (s : sqlite3_stmt) (idx : Nat) (v : SqlValue) :
    ∃ c st d, sqlite3_bind db (some s) idx v = (c, some st, d) ∧ Kept db d ∧
      d.faults = db.faults.tail ∧ d.log = db.log ++ [⟨.bind, some s.query, c, db.changes⟩] ∧
      (c = 0 → st = { s with args := fun i => if i = idx then some v else s.args i }) ∧
      (c ≠ 0 → isError c = true ∧ st = s) ∧ (Healthy db → c = 0) := by
  by_cases h : db.pending = 0
  · refine ⟨0, { s with args := fun i => if i = idx then some v else s.args i },
      db.record ⟨.bind, some s.query, 0, db.changes⟩,
      ?_, ⟨rfl, rfl, rfl⟩, rfl, rfl, fun _ => rfl, fun h0 => absurd rfl h0, fun _ => rfl⟩
    simp [sqlite3_bind, h]
  · refine ⟨db.pending, s, db.record ⟨.bind, some s.query, db.pending, db.changes⟩,
      ?_, ⟨rfl, rfl, rfl⟩, rfl, rfl, fun h0 => absurd h0 h,
      fun _ => ⟨isError_pending db h, rfl⟩, fun hh => absurd hh.pending h⟩
    simp [sqlite3_bind, h]

/-- The outcome of `sqlite3_finalize`. -/
theorem finalize_cases (db : sqlite3) (st : Option sqlite3_stmt) :
    ∃ c d, sqlite3_finalize db st = (c, d) ∧ Kept db d ∧
      d.log = db.log ++ [⟨.finalize, st.map (fun s => s.query), c, db.changes⟩] ∧
      (Healthy db → c = 0 ∧ Healthy d) := by
  cases st with
  | none =>
    exact ⟨0, { db with log := db.log ++ [⟨.finalize, none, 0, db.changes⟩] }, rfl,
      ⟨rfl, rfl, rfl⟩, rfl, fun hh => ⟨rfl, hh.same rfl⟩⟩
  | some s =>
    exact ⟨db.pending, db.record ⟨.finalize, some s.query, db.pending, db.changes⟩, rfl,
      ⟨rfl, rfl, rfl⟩, rfl, fun hh => ⟨hh.pending, hh.tail rfl⟩⟩

theorem chain_prepare (db : sqlite3) (q : Query) :
    ChainRes db q (fun _ => none) (sqlite3_prepare_v2 db q) := by
  obtain ⟨c, st, d, he, hk, hf, hl, h0, h1, hh⟩ := prepare_cases db q
  rw [he]
  refine ⟨_, hk, hl, fun h => ⟨hh h, h.tail hf⟩, ?_⟩
  by_cases hc : c = 0
  · subst hc
    simp [Chain, h0 rfl, firstFailure, quietAfter, closes_cons, opens_cons, wrote_cons, closes_nil, opens_nil,
      wrote_nil, isRowWrite, mapped]
  · obtain ⟨he1, hst⟩ := h1 hc
    simp [Chain, hc, he1, hst, firstFailure, quietAfter, closes, opens, wrote, isRowWrite,
      mapped]

theorem chain_bind (db : sqlite3) (q : Query) (a : Nat → Option SqlValue) (r : Res)
    (idx : Nat) (v : SqlValue) (h : ChainRes db q a r) :
    ChainRes db q (fun i => if i = idx then some v else a i)
      (whenOk r (fun d s => sqlite3_bind d s idx v)) := by
  obtain ⟨c, st, d⟩ := r
  obtain ⟨tr, hk, hl, hh, hff, hq, hcl, hw, hop, hst, herr⟩ := h
  simp only at hk hl hh hff hq hcl hw hop hst herr
  by_cases hc : c = 0
  · subst hc
    rw [hst rfl, whenOk_zero]
    obtain ⟨c', st', d', he, hk', hf', hl', h0, h1, hh'⟩ := bind_cases d ⟨q, a, []⟩ idx v
    rw [he]
    refine ⟨tr ++ [⟨.bind, some q, c', d.changes⟩], hk.trans hk', ?_,
      fun h => ⟨hh' (hh h).2, (hh h).2.tail hf'⟩, ?_⟩
    · simp [hl', hl]
    · by_cases hc' : c' = 0
      · subst hc'
        simp [Chain, firstFailure_append, quietAfter_append, closes_append, opens_append,
          wrote_append, hff, hq, hcl, hw, hop, hst rfl, h0 rfl, firstFailure, quietAfter,
          closes_cons, opens_cons, wrote_cons, closes_nil, opens_nil, wrote_nil, isRowWrite,
          mapped]
      · simp [Chain, firstFailure_append, quietAfter_append, closes_append, opens_append,
          wrote_append, hff, hq, hcl, hw, hop, hst rfl, hc', (h1 hc').1, firstFailure,
          quietAfter, closes_cons, opens_cons, wrote_cons, closes_nil, opens_nil, wrote_nil,
          isRowWrite, mapped]
  · rw [whenOk_ne c st d _ hc]
    exact ⟨tr, hk, hl, hh, hff, hq, hcl, hw, hop, fun h0 => absurd h0 hc, herr⟩


/-- The outcome of `sqlite3_step` on a live statement. -/
theorem step_cases (db : sqlite3) (s : sqlite3_stmt) :
    (∃ c d, isError c = true ∧ sqlite3_step db (some s) = (c, some s, d) ∧ Kept db d ∧
      d.faults = db.faults.tail ∧ d.log = db.log ++ [⟨.step, some s.query, c, db.changes⟩] ∧
      ¬ Healthy db) ∨
    (∃ d, sqlite3_step db (some s) =
        ((exec s.query s.args db.tables db.counts db.changes).code,
          some { s with row := (exec s.query s.args db.tables db.counts db.changes).row }, d) ∧
      d.tables = (exec s.query s.args db.tables db.counts db.changes).tables ∧
      d.counts = (exec s.query s.args db.tables db.counts db.changes).counts ∧
      d.changes = (exec s.query s.args db.tables db.counts db.changes).changes ∧
      d.faults = db.faults.tail ∧
      d.log = db.log ++ [⟨.step, some s.query,
        (exec s.query s.args db.tables db.counts db.changes).code,
        (exec s.query s.args db.tables db.counts db.changes).changes⟩]) := by
  by_cases h : db.pending = 0
  · right
    exact ⟨_, by simp [sqlite3_step, h]; rfl, rfl, rfl, rfl, rfl, rfl⟩
  · left
    exact ⟨db.pending, db.record ⟨.step, some s.query, db.pending, db.changes⟩,
      isError_pending db h, by simp [sqlite3_step, h], ⟨rfl, rfl, rfl⟩, rfl, rfl,
      fun hh => h hh.pending⟩


/-- The outcome of the guarded step that follows a prepare-and-bind sequence:
the sequence failed, the step failed, or the statement was executed. -/
theorem run_cases (db : sqlite3) (q : Query) (a : Nat → Option SqlValue) (r : Res)
    (h : ChainRes db q a r) :
    (r.1 ≠ 0 ∧ isError r.1 = true ∧ whenOk r sqlite3_step = r ∧ ¬ Healthy db ∧
      Kept db r.2.2 ∧ ∃ tr, r.2.2.log = db.log ++ tr ∧ firstFailure tr = r.1 ∧
        quietAfter tr = true ∧ closes tr = 0 ∧ wrote tr = false ∧
        opens tr = if r.2.1.isSome then 1 else 0) ∨
    (r.1 = 0 ∧ ∃ c d tr, isError c = true ∧
      whenOk r sqlite3_step = (c, some ⟨q, a, []⟩, d) ∧ ¬ Healthy db ∧ Kept db d ∧
      d.log = db.log ++ tr ++ [⟨.step, some q, c, db.changes⟩] ∧ firstFailure tr = 0 ∧
      closes tr = 0 ∧ wrote tr = false ∧ opens tr = 1) ∨
    (r.1 = 0 ∧ ∃ d tr,
      whenOk r sqlite3_step =
        ((exec q a db.tables db.counts db.changes).code,
          some ⟨q, a, (exec q a db.tables db.counts db.changes).row⟩, d) ∧
      d.tables = (exec q a db.tables db.counts db.changes).tables ∧
      d.counts = (exec q a db.tables db.counts db.changes).counts ∧
      d.changes = (exec q a db.tables db.counts db.changes).changes ∧
      (Healthy db → Healthy d) ∧
      d.log = db.log ++ tr ++ [⟨.step, some q, (exec q a db.tables db.counts db.changes).code,
        (exec q a db.tables db.counts db.changes).changes⟩] ∧ firstFailure tr = 0 ∧
      closes tr = 0 ∧ wrote tr = false ∧ opens tr = 1) := by
  obtain ⟨c, st, d⟩ := r
  obtain ⟨tr, hk, hl, hh, hff, hq, hcl, hw, hop, hst, herr⟩ := h
  simp only at hk hl hh hff hq hcl hw hop hst herr
  by_cases hc : c = 0
  · subst hc
    have hs := hst rfl
    subst hs
    right
    rcases step_cases d ⟨q, a, []⟩ with
      ⟨c', d', he', hs, hk', hf', hl', hnh⟩ | ⟨d', hs, ht', hc', hch', hf', hl'⟩
    · left
      refine ⟨rfl, c', d', tr, he', by rw [whenOk_zero, hs], ?_, hk.trans hk', ?_, hff, hcl, hw,
        by simpa using hop⟩
      · exact fun h => hnh (hh h).2
      · rw [hl', hl, hk.2.2]
    · right
      obtain ⟨hk1, hk2, hk3⟩ := hk
      rw [hk1, hk2, hk3] at hs ht' hc' hch' hl'
      refine ⟨rfl, d', tr, by rw [whenOk_zero, hs], ht', hc', hch',
        fun h => (hh h).2.tail hf', ?_, hff, hcl, hw, by simpa using hop⟩
      rw [hl', hl]
  · left
    refine ⟨hc, herr hc, whenOk_ne c st d _ hc, fun h => hc (hh h).1, hk, tr, hl, hff, hq, hcl,
      hw, hop⟩


theorem cstr_append_zero (name : Bytes) (h : 0 ∉ name) : cstr (name ++ [0]) = name := by
  induction name with
  | nil => rfl
  | cons x rest ih =>
    have hx : x ≠ 0 := fun hx => h (by simp [hx])
    have hrest : 0 ∉ rest := fun hr => h (List.mem_cons_of_mem _ hr)
    have := ih hrest
    simp only [cstr] at this ⊢
    simp [List.takeWhile_cons, hx, this]

/-- A table parameter bound with the terminator of the name names the table. -/
theorem argTable_name (a : Nat → Option SqlValue) (i : Nat) (name : Bytes) (hn : 0 ∉ name)
    (h : a i = some (.text (name ++ [0]))) : argTable a i = some name := by
  simp [argTable, h, cstr_append_zero name hn]

theorem ofText_some (b : Bytes) : SqlValue.ofText (some b) = .text b := rfl

theorem ofBlob_some (b : Bytes) : SqlValue.ofBlob (some b) = .blob b := rfl

theorem cellEq_ofBlob (key : MDB_val) (c : Bytes) :
    cellEq (.ofBlob key) c = decide (key = some c) := by
  cases key with
  | none => simp [SqlValue.ofBlob, cellEq]
  | some k =>
    simp only [SqlValue.ofBlob, cellEq, Option.some.injEq]
    by_cases h : c = k
    · simp [h]
    · have h' : ¬ k = c := fun e => h e.symm
      simp [h, h']

theorem cellEq_ofText (key : MDB_val) (c : Bytes) : cellEq (.ofText key) c = false := by
  cases key <;> rfl

theorem exec_create_table (a : Nat → Option SqlValue) (tables : Bytes → Option Table)
    (counts : Bytes → Option Int) (changes : Nat) (uniq : Bool) (name : Bytes)
    (h1 : argTable a 1 = some name) :
    exec (.create_table uniq) a tables counts changes =
      ⟨SQLITE_DONE, [],
        (match tables name with
          | some _ => tables
          | none => setTable tables name ⟨uniq, []⟩), counts, changes⟩ := by
  simp only [exec, h1]
  cases tables name <;> rfl

theorem exec_insert_entry_count (a : Nat → Option SqlValue) (tables : Bytes → Option Table)
    (counts : Bytes → Option Int) (changes : Nat) (name : Bytes)
    (h1 : argText a 1 = some name) :
    exec .insert_entry_count a tables counts changes =
      ⟨SQLITE_DONE, [], tables,
        (match counts name with
          | some _ => counts
          | none => setCount counts name 0),
        (match counts name with
          | some _ => 0
          | none => 1)⟩ := by
  simp only [exec, h1]
  cases counts name <;> rfl

theorem exec_update_entry_count (a : Nat → Option SqlValue) (tables : Bytes → Option Table)
    (counts : Bytes → Option Int) (changes : Nat) (delta : Int) (name : Bytes)
    (h1 : argInt a 1 = some delta) (h2 : argText a 2 = some name) :
    exec .update_entry_count a tables counts changes =
      ⟨SQLITE_DONE, [], tables, bump counts name delta,
        if (counts name).isSome then 1 else 0⟩ := by
  simp only [exec, h1, h2, bump]
  cases counts name <;> rfl

/-- A key bound as a TEXT selects no row of a table of BLOB keys. -/
theorem exec_select_value (a : Nat → Option SqlValue) (tables : Bytes → Option Table)
    (counts : Bytes → Option Int) (changes : Nat) (name : Bytes) (key : MDB_val)
    (h1 : argTable a 1 = some name) (h2 : argValue a 2 = .ofText key) :
    exec .select_value a tables counts changes =
      match tables name with
      | some _ => ⟨SQLITE_DONE, [], tables, counts, changes⟩
      | none => ⟨SQLITE_ERROR, [], tables, counts, changes⟩ := by
  simp only [exec, h1, h2, cellEq_ofText]
  cases tables name with
  | none => rfl
  | some t =>
    have : t.rows.find? (fun _ => false) = none := by simp
    simp only [this]

theorem exec_select_rowid (a : Nat → Option SqlValue) (tables : Bytes → Option Table)
    (counts : Bytes → Option Int) (changes : Nat) (name : Bytes) (key : MDB_val)
    (h1 : argTable a 1 = some name) (h2 : argValue a 2 = .ofBlob key) :
    exec .select_rowid a tables counts changes =
      match tables name with
      | some t =>
        match t.rows.find? (fun r => key = some r.key) with
        | some r => ⟨SQLITE_ROW, [.int64 r.rowid], tables, counts, changes⟩
        | none => ⟨SQLITE_DONE, [], tables, counts, changes⟩
      | none => ⟨SQLITE_ERROR, [], tables, counts, changes⟩ := by
  simp only [exec, h1, h2, cellEq_ofBlob]

theorem exec_update_value (a : Nat → Option SqlValue) (tables : Bytes → Option Table)
    (counts : Bytes → Option Int) (changes : Nat) (name value : Bytes) (rowid : Int)
    (h1 : argTable a 1 = some name) (h2 : argValue a 2 = .blob value)
    (h3 : argInt a 3 = some rowid) :
    exec .update_value a tables counts changes =
      match tables name with
      | some t =>
        ⟨SQLITE_DONE, [],
          setTable tables name
            ⟨t.uniq, t.rows.map (fun r => if r.rowid = rowid then { r with value := value } else r)⟩,
          counts, (t.rows.filter (fun r => r.rowid = rowid)).length⟩
      | none => ⟨SQLITE_ERROR, [], tables, counts, changes⟩ := by
  simp only [exec, h1, h2, h3, SqlValue.asBlob]

/-- A NULL value is refused by the `NOT NULL` column of the row it would be
written to. -/
theorem exec_update_value_null (a : Nat → Option SqlValue) (tables : Bytes → Option Table)
    (counts : Bytes → Option Int) (changes : Nat) (name : Bytes) (rowid : Int)
    (h1 : argTable a 1 = some name) (h2 : argValue a 2 = .null)
    (h3 : argInt a 3 = some rowid) :
    exec .update_value a tables counts changes =
      match tables name with
      | some t =>
        if (t.rows.filter (fun r => r.rowid = rowid)).length = 0 then
          ⟨SQLITE_DONE, [], tables, counts, 0⟩
        else ⟨SQLITE_CONSTRAINT, [], tables, counts, changes⟩
      | none => ⟨SQLITE_ERROR, [], tables, counts, changes⟩ := by
  simp only [exec, h1, h2, h3, SqlValue.asBlob, refusal, if_true]

theorem exec_insert_row (a : Nat → Option SqlValue) (tables : Bytes → Option Table)
    (counts : Bytes → Option Int) (changes : Nat) (name key value : Bytes)
    (h1 : argTable a 1 = some name) (h2 : argValue a 2 = .blob key)
    (h3 : argValue a 3 = .blob value) :
    exec .insert_row a tables counts changes =
      match tables name with
      | some t =>
        if t.uniq ∧ (t.rows.find? (fun r => r.key = key)).isSome then
          ⟨SQLITE_CONSTRAINT, [], tables, counts, changes⟩
        else ⟨SQLITE_DONE, [],
          setTable tables name ⟨t.uniq, t.rows ++ [⟨nextRowid t.rows, key, value⟩]⟩, counts, 1⟩
      | none => ⟨SQLITE_ERROR, [], tables, counts, changes⟩ := by
  simp only [exec, h1, h2, h3, SqlValue.asBlob]

/-- A NULL key or value is refused by the `NOT NULL` columns. -/
theorem exec_insert_row_null (a : Nat → Option SqlValue) (tables : Bytes → Option Table)
    (counts : Bytes → Option Int) (changes : Nat) (name : Bytes) (key value : MDB_val)
    (h1 : argTable a 1 = some name) (h2 : argValue a 2 = .ofBlob key)
    (h3 : argValue a 3 = .ofBlob value) (hnull : key = none ∨ value = none) :
    exec .insert_row a tables counts changes =
      match tables name with
      | some _ => ⟨SQLITE_CONSTRAINT, [], tables, counts, changes⟩
      | none => ⟨SQLITE_ERROR, [], tables, counts, changes⟩ := by
  simp only [exec, h1, h2, h3]
  cases tables name with
  | none => rfl
  | some t =>
    cases key with
    | none => cases value <;> rfl
    | some k =>
      cases value with
      | none => rfl
      | some v => simp at hnull

theorem exec_delete_key_value (a : Nat → Option SqlValue) (tables : Bytes → Option Table)
    (counts : Bytes → Option Int) (changes : Nat) (name : Bytes) (key value : MDB_val)
    (h1 : argTable a 1 = some name) (h2 : argValue a 2 = .ofBlob key)
    (h3 : argValue a 3 = .ofBlob value) :
    exec .delete_key_value a tables counts changes =
      match tables name with
      | some t =>
        ⟨SQLITE_DONE, [],
          setTable tables name
            ⟨t.uniq, t.rows.filter
              (fun r => !(decide (key = some r.key) && decide (value = some r.value)))⟩,
          counts,
          (t.rows.filter
            (fun r => decide (key = some r.key) && decide (value = some r.value))).length⟩
      | none => ⟨SQLITE_ERROR, [], tables, counts, changes⟩ := by
  simp only [exec, h1, h2, h3, cellEq_ofBlob]

theorem exec_delete_key (a : Nat → Option SqlValue) (tables : Bytes → Option Table)
    (counts : Bytes → Option Int) (changes : Nat) (name : Bytes) (key : MDB_val)
    (h1 : argTable a 1 = some name) (h2 : argValue a 2 = .ofBlob key) :
    exec .delete_key a tables counts changes =
      match tables name with
      | some t =>
        ⟨SQLITE_DONE, [],
          setTable tables name ⟨t.uniq, t.rows.filter (fun r => !decide (key = some r.key))⟩,
          counts, (t.rows.filter (fun r => decide (key = some r.key))).length⟩
      | none => ⟨SQLITE_ERROR, [], tables, counts, changes⟩ := by
  simp only [exec, h1, h2, cellEq_ofBlob]

/-- What `add_dbi_entries` does to the store and which calls it makes: the
counter row it updates is the one stored under the name with its terminator. -/
theorem add_dbi_entries_spec (db : sqlite3) (name : Bytes) (delta : Int) :
    ∃ rc d tr, add_dbi_entries db name delta = (rc, d) ∧ d.tables = db.tables ∧
      (rc = 0 → d.counts = bump db.counts (name ++ [0]) delta) ∧
      (d.counts = db.counts ∨ d.counts = bump db.counts (name ++ [0]) delta) ∧
      (Healthy db → rc = 0 ∧ Healthy d) ∧
      d.log = db.log ++ tr ∧ TraceOk tr rc ∧ wrote tr = false := by
  unfold add_dbi_entries
  simp only [sqlite3_bind_int64, sqlite3_bind_text, ofText_some]
  have hch := chain_bind db _ _ _ 2 (.text (name ++ [0]))
    (chain_bind db _ _ _ 1 (.int64 delta) (chain_prepare db .update_entry_count))
  generalize whenOk (whenOk (sqlite3_prepare_v2 db Query.update_entry_count)
    (fun d s => sqlite3_bind d s 1 (.int64 delta)))
    (fun d s => sqlite3_bind d s 2 (.text (name ++ [0]))) = b at hch ⊢
  obtain ⟨a, ha1, ha2, hch⟩ : ∃ a, argInt a 1 = some delta ∧
      argText a 2 = some (name ++ [0]) ∧
      ChainRes db .update_entry_count a b := by
    refine ⟨_, ?_, ?_, hch⟩ <;> rfl
  rcases run_cases db _ _ b hch with
    ⟨h0, herr, hw, hnh, hk, tr, hl, hff, hq, hcl, hwr, hop⟩ |
    ⟨h0, c, d, tr, herr, hw, hnh, hk, hl, hff, hcl, hwr, hop⟩ |
    ⟨h0, d, tr, hw, ht, hc, hch', hh, hl, hff, hcl, hwr, hop⟩
  · obtain ⟨c, st, d⟩ := b
    simp only at h0 herr hk hl hff hop
    obtain ⟨cf, df, hf, hkf, hlf, hhf⟩ := finalize_cases d st
    simp only [hw, hf, h0, if_false]
    refine ⟨c, df, _, rfl, hkf.1.trans hk.1, fun h => absurd h h0, Or.inl (hkf.2.1.trans hk.2.1),
      fun h => absurd h hnh, by rw [hlf, hl, List.append_assoc], ?_, ?_⟩
    · cases st <;>
        simp [TraceOk, firstFailure_append, quietAfter_append, opens_append, closes_append,
          hff, hq, hcl, hop, h0, opens_cons, closes_cons, opens_nil, closes_nil, isFinalize]
    · simp [wrote_append, hwr, wrote_cons, wrote_nil, isRowWrite]
  · obtain ⟨hc0, -, hcd⟩ := isError_ne c herr
    obtain ⟨cf, df, hf, hkf, hlf, hhf⟩ := finalize_cases d (some ⟨.update_entry_count, a, []⟩)
    simp only [hw, hf, h0, if_true, hcd, hc0, if_false]
    refine ⟨c, df, _, rfl, hkf.1.trans hk.1, fun h => absurd h hc0,
      Or.inl (hkf.2.1.trans hk.2.1), fun h => absurd h hnh,
      by rw [hlf, hl, List.append_assoc, List.append_assoc], ?_, ?_⟩
    · simp [TraceOk, firstFailure_append, quietAfter_append, opens_append, closes_append,
        hff, hcl, hop, hc0, hcd, opens_cons, closes_cons, opens_nil, closes_nil, isFinalize,
        firstFailure, quietAfter, mapped]
    · simp [wrote_append, hwr, wrote_cons, wrote_nil, isRowWrite]
  · rw [exec_update_entry_count a _ _ _ delta (name ++ [0]) ha1 ha2] at hw ht hc hch' hl
    simp only at hw ht hc hch' hl
    obtain ⟨cf, df, hf, hkf, hlf, hhf⟩ := finalize_cases d (some ⟨.update_entry_count, a, []⟩)
    simp only [hw, hf, h0, if_true]
    refine ⟨cf, df, _, rfl, hkf.1.trans ht, fun _ => hkf.2.1.trans hc,
      Or.inr (hkf.2.1.trans hc), fun h => hhf (hh h),
      by rw [hlf, hl, List.append_assoc, List.append_assoc], ?_, ?_⟩
    · by_cases hcf : cf = 0 <;>
        simp [TraceOk, firstFailure_append, quietAfter_append, opens_append, closes_append,
          hff, hcl, hop, hcf, opens_cons, closes_cons, opens_nil, closes_nil, isFinalize,
          firstFailure, quietAfter, mapped]
    · simp [wrote_append, hwr, wrote_cons, wrote_nil, isRowWrite]


/-- What the row lookup of `mdb_put` returns and which calls it makes. -/
theorem mdb_put_select_spec (db : sqlite3) (name : Bytes) (key : MDB_val) (hn : 0 ∉ name) :
    ∃ rc rowid d tr, mdb_put_select db name key = (rc, rowid, d) ∧
      d.tables = db.tables ∧ d.counts = db.counts ∧
      (rc = 0 → ∃ t, db.tables name = some t ∧
        rowid = (t.rows.find? (fun r => key = some r.key)).map (fun r => r.rowid)) ∧
      (Healthy db → Healthy d ∧ ∀ t, db.tables name = some t → rc = 0) ∧
      d.log = db.log ++ tr ∧ TraceOk tr rc ∧ wrote tr = false := by
  unfold mdb_put_select
  simp only [sqlite3_bind_blob, sqlite3_bind_text, ofText_some]
  have hch := chain_bind db _ _ _ 2 (.ofBlob key)
    (chain_bind db _ _ _ 1 (.text (name ++ [0])) (chain_prepare db .select_rowid))
  generalize whenOk (whenOk (sqlite3_prepare_v2 db Query.select_rowid)
    (fun d s => sqlite3_bind d s 1 (.text (name ++ [0]))))
    (fun d s => sqlite3_bind d s 2 (.ofBlob key)) = b at hch ⊢
  obtain ⟨a, ha1, ha2, hch⟩ : ∃ a, a 1 = some (.text (name ++ [0])) ∧
      argValue a 2 = .ofBlob key ∧ ChainRes db .select_rowid a b := by
    refine ⟨_, ?_, ?_, hch⟩ <;> rfl
  replace ha1 := argTable_name a 1 name hn ha1
  rcases run_cases db _ _ b hch with
    ⟨h0, herr, hw, hnh, hk, tr, hl, hff, hq, hcl, hwr, hop⟩ |
    ⟨h0, c, d, tr, herr, hw, hnh, hk, hl, hff, hcl, hwr, hop⟩ |
    ⟨h0, d, tr, hw, ht, hc, hch', hh, hl, hff, hcl, hwr, hop⟩
  · obtain ⟨c, st, d⟩ := b
    simp only at h0 herr hk hl hff hop
    obtain ⟨cf, df, hf, hkf, hlf, hhf⟩ := finalize_cases d st
    simp only [hw, hf, h0, if_false, false_and]
    refine ⟨c, none, df, _, rfl, hkf.1.trans hk.1, hkf.2.1.trans hk.2.1, fun h => absurd h h0,
      fun h => absurd h hnh, by rw [hlf, hl, List.append_assoc], ?_, ?_⟩
    · cases st <;>
        simp [TraceOk, firstFailure_append, quietAfter_append, opens_append, closes_append,
          hff, hq, hcl, hop, h0, opens_cons, closes_cons, opens_nil, closes_nil, isFinalize]
    · simp [wrote_append, hwr, wrote_cons, wrote_nil, isRowWrite]
  · obtain ⟨hc0, hcr, hcd⟩ := isError_ne c herr
    obtain ⟨cf, df, hf, hkf, hlf, hhf⟩ := finalize_cases d (some ⟨.select_rowid, a, []⟩)
    simp only [hw, hf, h0, if_true, hcd, hcr, hc0, if_false, and_false]
    refine ⟨c, none, df, _, rfl, hkf.1.trans hk.1, hkf.2.1.trans hk.2.1, fun h => absurd h hc0,
      fun h => absurd h hnh, by rw [hlf, hl, List.append_assoc, List.append_assoc], ?_, ?_⟩
    · simp [TraceOk, firstFailure_append, quietAfter_append, opens_append, closes_append,
        hff, hcl, hop, hc0, hcd, hcr, opens_cons, closes_cons, opens_nil, closes_nil,
        isFinalize, firstFailure, quietAfter, mapped]
    · simp [wrote_append, hwr, wrote_cons, wrote_nil, isRowWrite]
  · rw [exec_select_rowid a _ _ _ name key ha1 ha2] at hw ht hc hch' hl
    cases htb : db.tables name with
    | none =>
      simp only [htb] at hw ht hc hch' hl
      obtain ⟨cf, df, hf, hkf, hlf, hhf⟩ := finalize_cases d (some ⟨.select_rowid, a, []⟩)
      simp only [hw, hf, h0, if_true]
      refine ⟨SQLITE_ERROR, none, df, _, by simp [SQLITE_ERROR, SQLITE_ROW, SQLITE_DONE],
        hkf.1.trans ht, hkf.2.1.trans hc, fun h => absurd h (by decide),
        fun h => ⟨(hhf (hh h)).2, fun t ht => by simp at ht⟩,
        by rw [hlf, hl, List.append_assoc, List.append_assoc], ?_, ?_⟩
      · simp [TraceOk, firstFailure_append, quietAfter_append, opens_append, closes_append,
          hff, hcl, hop, opens_cons, closes_cons, opens_nil, closes_nil,
          isFinalize, firstFailure, quietAfter, mapped, SQLITE_ERROR, SQLITE_ROW, SQLITE_DONE]
      · simp [wrote_append, hwr, wrote_cons, wrote_nil, isRowWrite, SQLITE_ERROR, SQLITE_DONE]
    | some t =>
      simp only [htb] at hw ht hc hch' hl
      obtain ⟨cf, df, hf, hkf, hlf, hhf⟩ := finalize_cases d (some ⟨.select_rowid, a, []⟩)
      cases hfd : t.rows.find? (fun r => key = some r.key) with
      | none =>
        simp only [hfd] at hw ht hc hch' hl
        obtain ⟨cf, df, hf, hkf, hlf, hhf⟩ := finalize_cases d (some ⟨.select_rowid, a, []⟩)
        simp only [hw, hf, h0, if_true]
        refine ⟨cf, none, df, _, by simp [SQLITE_ROW, SQLITE_DONE],
          hkf.1.trans ht, hkf.2.1.trans hc, fun _ => ⟨t, rfl, by rw [hfd]; rfl⟩,
          fun h => ⟨(hhf (hh h)).2, fun _ _ => (hhf (hh h)).1⟩,
          by rw [hlf, hl, List.append_assoc, List.append_assoc], ?_, ?_⟩
        · by_cases hcf : cf = 0 <;>
            simp [TraceOk, firstFailure_append, quietAfter_append, opens_append, closes_append,
              hff, hcl, hop, hcf, opens_cons, closes_cons, opens_nil, closes_nil,
              isFinalize, firstFailure, quietAfter, mapped, SQLITE_ROW, SQLITE_DONE]
        · simp [wrote_append, hwr, wrote_cons, wrote_nil, isRowWrite]
      | some r =>
        simp only [hfd] at hw ht hc hch' hl
        obtain ⟨cf, df, hf, hkf, hlf, hhf⟩ :=
          finalize_cases d (some ⟨.select_rowid, a, [.int64 r.rowid]⟩)
        simp only [hw, hf, h0, if_true]
        refine ⟨cf, some r.rowid, df, _, by simp [SQLITE_ROW, SQLITE_DONE, sqlite3_column_int64],
          hkf.1.trans ht, hkf.2.1.trans hc, fun _ => ⟨t, rfl, by rw [hfd]; rfl⟩,
          fun h => ⟨(hhf (hh h)).2, fun _ _ => (hhf (hh h)).1⟩,
          by rw [hlf, hl, List.append_assoc, List.append_assoc], ?_, ?_⟩
        · by_cases hcf : cf = 0 <;>
            simp [TraceOk, firstFailure_append, quietAfter_append, opens_append, closes_append,
              hff, hcl, hop, hcf, opens_cons, closes_cons, opens_nil, closes_nil,
              isFinalize, firstFailure, quietAfter, mapped, SQLITE_ROW, SQLITE_DONE]
        · simp [wrote_append, hwr, wrote_cons, wrote_nil, isRowWrite]

/-- What `mdb_get` returns and which calls it makes: the key, bound as a TEXT,
selects no row of the table of BLOB keys, so the call never returns 0 and
never writes `*value`; the engine reporting no error it returns
`SQLITE_NOTFOUND`. -/
theorem mdb_get_spec (txn : MDB_txn) (dbi : MDB_dbi_inner) (key : MDB_val) (value : Bytes) :
    ∃ rc d tr,
      mdb_get txn dbi key value = (rc, { txn with db_conn := d }, value) ∧
      d.tables = txn.db_conn.tables ∧ d.counts = txn.db_conn.counts ∧
      rc ≠ 0 ∧
      (Healthy txn.db_conn → Healthy d ∧
        ∀ t, txn.db_conn.tables dbi.name = some t → rc = SQLITE_NOTFOUND) ∧
      d.log = txn.db_conn.log ++ tr ∧ TraceOk tr rc := by
  unfold mdb_get
  simp only [sqlite3_bind_text, ofText_some]
  have hch := chain_bind txn.db_conn _ _ _ 2 (.ofText key)
    (chain_bind txn.db_conn _ _ _ 1 (.text (dbi.name ++ [0]))
      (chain_prepare txn.db_conn .select_value))
  generalize whenOk (whenOk (sqlite3_prepare_v2 txn.db_conn Query.select_value)
    (fun d s => sqlite3_bind d s 1 (.text (dbi.name ++ [0]))))
    (fun d s => sqlite3_bind d s 2 (.ofText key)) = b at hch ⊢
  obtain ⟨a, ha1, ha2, hch⟩ : ∃ a, a 1 = some (.text (dbi.name ++ [0])) ∧
      argValue a 2 = .ofText key ∧ ChainRes txn.db_conn .select_value a b := by
    refine ⟨_, ?_, ?_, hch⟩ <;> rfl
  replace ha1 := argTable_name a 1 dbi.name dbi.nul_free ha1
  rcases run_cases txn.db_conn _ _ b hch with
    ⟨h0, herr, hw, hnh, hk, tr, hl, hff, hq, hcl, hwr, hop⟩ |
    ⟨h0, c, d, tr, herr, hw, hnh, hk, hl, hff, hcl, hwr, hop⟩ |
    ⟨h0, d, tr, hw, ht, hc, hch', hh, hl, hff, hcl, hwr, hop⟩
  · obtain ⟨c, st, d⟩ := b
    simp only at h0 herr hk hl hff hop
    obtain ⟨cf, df, hf, hkf, hlf, hhf⟩ := finalize_cases d st
    simp only [hw, hf, h0, if_false, false_and, decide_False, Bool.false_eq_true,
      beq_iff_eq, Bool.false_and]
    refine ⟨c, df, _, by simp [h0], hkf.1.trans hk.1, hkf.2.1.trans hk.2.1, h0,
      fun h => absurd h hnh, by rw [hlf, hl, List.append_assoc], ?_⟩
    cases st <;>
      simp [TraceOk, firstFailure_append, quietAfter_append, opens_append, closes_append,
        hff, hq, hcl, hop, h0, opens_cons, closes_cons, opens_nil, closes_nil, isFinalize]
  · obtain ⟨hc0, hcr, hcd⟩ := isError_ne c herr
    obtain ⟨cf, df, hf, hkf, hlf, hhf⟩ := finalize_cases d (some ⟨.select_value, a, []⟩)
    simp only [hw, hf, h0, if_true, hcd, hcr, hc0, if_false, and_false, decide_False,
      Bool.false_eq_true, beq_iff_eq, Bool.and_false]
    refine ⟨c, df, _, by simp [hcr], hkf.1.trans hk.1, hkf.2.1.trans hk.2.1, hc0,
      fun h => absurd h hnh, by rw [hlf, hl, List.append_assoc, List.append_assoc], ?_⟩
    simp [TraceOk, firstFailure_append, quietAfter_append, opens_append, closes_append,
      hff, hcl, hop, hc0, hcd, hcr, opens_cons, closes_cons, opens_nil, closes_nil,
      isFinalize, firstFailure, quietAfter, mapped]
  · rw [exec_select_value a _ _ _ dbi.name key ha1 ha2] at hw ht hc hch' hl
    obtain ⟨cf, df, hf, hkf, hlf, hhf⟩ := finalize_cases d (some ⟨.select_value, a, []⟩)
    cases htb : txn.db_conn.tables dbi.name with
    | none =>
      simp only [htb] at hw ht hc hch' hl
      simp only [hw, hf, h0, if_true]
      refine ⟨SQLITE_ERROR, df, _,
        by simp [SQLITE_ERROR, SQLITE_ROW, SQLITE_DONE],
        hkf.1.trans ht, hkf.2.1.trans hc, by decide,
        fun h => ⟨(hhf (hh h)).2, fun t ht => by simp at ht⟩,
        by rw [hlf, hl, List.append_assoc, List.append_assoc], ?_⟩
      simp [TraceOk, firstFailure_append, quietAfter_append, opens_append, closes_append,
        hff, hcl, hop, opens_cons, closes_cons, opens_nil, closes_nil,
        isFinalize, firstFailure, quietAfter, mapped, SQLITE_ERROR, SQLITE_ROW, SQLITE_DONE]
    | some t =>
      simp only [htb] at hw ht hc hch' hl
      simp only [hw, hf, h0, if_true]
      refine ⟨SQLITE_NOTFOUND, df, _,
        by simp [SQLITE_ROW, SQLITE_DONE, SQLITE_NOTFOUND],
        hkf.1.trans ht, hkf.2.1.trans hc, by decide,
        fun h => ⟨(hhf (hh h)).2, fun _ _ => rfl⟩,
        by rw [hlf, hl, List.append_assoc, List.append_assoc], ?_⟩
      simp [TraceOk, firstFailure_append, quietAfter_append, opens_append, closes_append,
        hff, hcl, hop, opens_cons, closes_cons, opens_nil, closes_nil,
        isFinalize, firstFailure, quietAfter, mapped, SQLITE_ROW, SQLITE_DONE,
        SQLITE_NOTFOUND]

theorem setTable_self (ts : Bytes → Option Table) (name : Bytes) (t : Table)
    (h : ts name = some t) : setTable ts name t = ts := by
  funext n
  by_cases hn : n = name
  · simp [setTable, hn, h]
  · simp [setTable, hn]

theorem map_ite_of_filter_nil (rows : List Row) (p : Row → Bool) (f : Row → Row)
    (h : (rows.filter p).length = 0) : rows.map (fun r => if p r then f r else r) = rows := by
  induction rows with
  | nil => rfl
  | cons r rest ih =>
    by_cases hp : p r
    · simp [List.filter_cons, hp] at h
    · simp only [List.filter_cons, hp] at h
      simp [hp, ih h]

theorem filter_not_of_filter_nil (rows : List Row) (p : Row → Bool)
    (h : (rows.filter p).length = 0) : rows.filter (fun r => !p r) = rows := by
  induction rows with
  | nil => rfl
  | cons r rest ih =>
    by_cases hp : p r
    · simp [List.filter_cons, hp] at h
    · simp only [List.filter_cons, hp] at h
      simp [hp, ih h]

/-- What the in-place update of `mdb_put` does and which calls it makes. -/
theorem mdb_put_update_spec (db : sqlite3) (name : Bytes) (value : MDB_val) (rowid : Int)
    (hn : 0 ∉ name) :
    ∃ rc st d tr, mdb_put_update db name value rowid = (rc, st, d) ∧ d.counts = db.counts ∧
      (wrote tr = false → d.tables = db.tables) ∧
      (wrote tr = true → ∃ t v, value = some v ∧ db.tables name = some t ∧
        d.tables = setTable db.tables name
          ⟨t.uniq, t.rows.map (fun r => if r.rowid = rowid then { r with value := v } else r)⟩) ∧
      (rc = 0 → ∃ t, db.tables name = some t ∧
        ((∃ v, value = some v ∧ d.tables = setTable db.tables name
            ⟨t.uniq, t.rows.map (fun r => if r.rowid = rowid then { r with value := v } else r)⟩) ∨
          (value = none ∧ (t.rows.filter (fun r => r.rowid = rowid)).length = 0 ∧
            d.tables = db.tables))) ∧
      (Healthy db → Healthy d ∧ ∀ t v, db.tables name = some t → value = some v → rc = 0) ∧
      d.log = db.log ++ tr ∧ firstFailure tr = rc ∧ quietAfter tr = true ∧
      opens tr = closes tr + (if st.isSome then 1 else 0) := by
  unfold mdb_put_update
  simp only [sqlite3_bind_blob, sqlite3_bind_text, sqlite3_bind_int64, ofText_some]
  have hch := chain_bind db _ _ _ 3 (.int64 rowid) (chain_bind db _ _ _ 2 (.ofBlob value)
    (chain_bind db _ _ _ 1 (.text (name ++ [0])) (chain_prepare db .update_value)))
  generalize whenOk (whenOk (whenOk (sqlite3_prepare_v2 db Query.update_value)
    (fun d s => sqlite3_bind d s 1 (.text (name ++ [0]))))
    (fun d s => sqlite3_bind d s 2 (.ofBlob value)))
    (fun d s => sqlite3_bind d s 3 (.int64 rowid)) = b at hch ⊢
  obtain ⟨a, ha1, ha2, ha3, hch⟩ : ∃ a, a 1 = some (.text (name ++ [0])) ∧
      argValue a 2 = .ofBlob value ∧ argInt a 3 = some rowid ∧
      ChainRes db .update_value a b := by
    refine ⟨_, ?_, ?_, ?_, hch⟩ <;> rfl
  replace ha1 := argTable_name a 1 name hn ha1
  rcases run_cases db _ _ b hch with
    ⟨h0, herr, hw, hnh, hk, tr, hl, hff, hq, hcl, hwr, hop⟩ |
    ⟨h0, c, d, tr, herr, hw, hnh, hk, hl, hff, hcl, hwr, hop⟩ |
    ⟨h0, d, tr, hw, ht, hc, hch', hh, hl, hff, hcl, hwr, hop⟩
  · obtain ⟨c, st, d⟩ := b
    simp only at h0 herr hk hl hff hop
    simp only [hw, h0, if_false]
    exact ⟨c, st, d, tr, rfl, hk.2.1, fun _ => hk.1, fun h => absurd h (by simp [hwr]),
      fun h => absurd h h0, fun h => absurd h hnh, hl, hff, hq, by rw [hop, hcl, Nat.zero_add]⟩
  · obtain ⟨hc0, hcr, hcd⟩ := isError_ne c herr
    simp only [hw, h0, if_true, hcd, if_false]
    refine ⟨c, _, d, _, rfl, hk.2.1, fun _ => hk.1, fun hwt => ?_, fun h => absurd h hc0,
      fun h => absurd h hnh, by rw [hl, List.append_assoc], ?_, ?_, ?_⟩
    · simp [wrote_append, hwr, wrote_cons, wrote_nil, isRowWrite, hcd] at hwt
    · simp [firstFailure_append, hff, firstFailure, mapped, hc0, hcd]
    · simp [quietAfter_append, hff, quietAfter, mapped, hc0, hcd]
    · simp [opens_append, closes_append, hop, hcl, opens_cons, closes_cons, opens_nil,
        closes_nil]
  · cases value with
    | some value =>
      rw [exec_update_value a _ _ _ name value rowid ha1 ha2 ha3] at hw ht hc hch' hl
      cases htb : db.tables name with
      | none =>
        simp only [htb] at hw ht hc hch' hl
        simp only [hw, h0, if_true]
        refine ⟨SQLITE_ERROR, some ⟨.update_value, a, []⟩, d, _,
          by simp [SQLITE_ERROR, SQLITE_DONE], hc, fun _ => ht, fun hwt => ?_,
          fun h => absurd h (by decide), fun h => ⟨hh h, fun t _ ht _ => by simp at ht⟩,
          by rw [hl, List.append_assoc], ?_, ?_, ?_⟩
        · simp [wrote_append, hwr, wrote_cons, wrote_nil, isRowWrite, SQLITE_ERROR,
            SQLITE_DONE] at hwt
        · simp [firstFailure_append, hff, firstFailure, mapped, SQLITE_ERROR, SQLITE_DONE]
        · simp [quietAfter_append, hff, quietAfter, mapped, SQLITE_ERROR, SQLITE_DONE]
        · simp [opens_append, closes_append, hop, hcl, opens_cons, closes_cons, opens_nil,
            closes_nil]
      | some t =>
        simp only [htb] at hw ht hc hch' hl
        simp only [hw, h0, if_true]
        refine ⟨0, _, d, _, rfl, hc, fun hwf => ?_, fun _ => ⟨t, value, rfl, rfl, ht⟩,
          fun _ => ⟨t, rfl, Or.inl ⟨value, rfl, ht⟩⟩,
          fun h => ⟨hh h, fun _ _ _ _ => rfl⟩, by rw [hl, List.append_assoc], ?_, ?_, ?_⟩
        · have hlen : (t.rows.filter (fun r => r.rowid = rowid)).length = 0 := by
            simpa [wrote_append, hwr, wrote_cons, wrote_nil, isRowWrite] using hwf
          rw [ht]
          have := map_ite_of_filter_nil t.rows (fun r => r.rowid = rowid)
            (fun r => { r with value := value }) hlen
          simp only [decide_eq_true_eq] at this
          rw [this]
          exact setTable_self _ _ _ htb
        · simp [firstFailure_append, hff, firstFailure, mapped]
        · simp [quietAfter_append, hff, quietAfter, mapped]
        · simp [opens_append, closes_append, hop, hcl, opens_cons, closes_cons, opens_nil,
            closes_nil]
    | none =>
      rw [exec_update_value_null a _ _ _ name rowid ha1 ha2 ha3] at hw ht hc hch' hl
      cases htb : db.tables name with
      | none =>
        simp only [htb] at hw ht hc hch' hl
        simp only [hw, h0, if_true]
        refine ⟨SQLITE_ERROR, some ⟨.update_value, a, []⟩, d, _,
          by simp [SQLITE_ERROR, SQLITE_DONE], hc, fun _ => ht, fun hwt => ?_,
          fun h => absurd h (by decide), fun h => ⟨hh h, fun t _ ht _ => by simp at ht⟩,
          by rw [hl, List.append_assoc], ?_, ?_, ?_⟩
        · simp [wrote_append, hwr, wrote_cons, wrote_nil, isRowWrite, SQLITE_ERROR,
            SQLITE_DONE] at hwt
        · simp [firstFailure_append, hff, firstFailure, mapped, SQLITE_ERROR, SQLITE_DONE]
        · simp [quietAfter_append, hff, quietAfter, mapped, SQLITE_ERROR, SQLITE_DONE]
        · simp [opens_append, closes_append, hop, hcl, opens_cons, closes_cons, opens_nil,
            closes_nil]
      | some t =>
        simp only [htb] at hw ht hc hch' hl
        by_cases hlen : (t.rows.filter (fun r => r.rowid = rowid)).length = 0
        · simp only [hlen, if_true] at hw ht hc hch' hl
          simp only [hw, h0, if_true]
          refine ⟨0, _, d, _, rfl, hc, fun _ => ht, fun hwt => ?_,
            fun _ => ⟨t, rfl, Or.inr ⟨trivial, hlen, ht⟩⟩,
            fun h => ⟨hh h, fun _ _ _ hv => by simp at hv⟩,
            by rw [hl, List.append_assoc], ?_, ?_, ?_⟩
          · simp [wrote_append, hwr, wrote_cons, wrote_nil, isRowWrite] at hwt
          · simp [firstFailure_append, hff, firstFailure, mapped]
          · simp [quietAfter_append, hff, quietAfter, mapped]
          · simp [opens_append, closes_append, hop, hcl, opens_cons, closes_cons, opens_nil,
              closes_nil]
        · simp only [hlen, if_false] at hw ht hc hch' hl
          simp only [hw, h0, if_true]
          refine ⟨SQLITE_CONSTRAINT, some ⟨.update_value, a, []⟩, d, _,
            by simp [SQLITE_CONSTRAINT, SQLITE_DONE], hc, fun _ => ht, fun hwt => ?_,
            fun h => absurd h (by decide),
            fun h => ⟨hh h, fun _ _ _ hv => by simp at hv⟩,
            by rw [hl, List.append_assoc], ?_, ?_, ?_⟩
          · simp [wrote_append, hwr, wrote_cons, wrote_nil, isRowWrite, SQLITE_CONSTRAINT,
              SQLITE_DONE] at hwt
          · simp [firstFailure_append, hff, firstFailure, mapped, SQLITE_CONSTRAINT,
              SQLITE_DONE]
          · simp [quietAfter_append, hff, quietAfter, mapped, SQLITE_CONSTRAINT, SQLITE_DONE]
          · simp [opens_append, closes_append, hop, hcl, opens_cons, closes_cons, opens_nil,
              closes_nil]
/-- What the insert of `mdb_put` (with its counter update) does and which
calls it makes.  A null key or value is refused by the `NOT NULL` columns; the
counter row updated is the one stored under the name with its terminator. -/
theorem mdb_put_insert_spec (db : sqlite3) (name : Bytes) (key value : MDB_val)
    (hn : 0 ∉ name) :
    ∃ rc st d tr, mdb_put_insert db name key value = (rc, st, d) ∧
      (wrote tr = false → d.tables = db.tables ∧ d.counts = db.counts) ∧
      (wrote tr = true → ∃ t k v, key = some k ∧ value = some v ∧ db.tables name = some t ∧
        d.tables = setTable db.tables name
          ⟨t.uniq, t.rows ++ [⟨nextRowid t.rows, k, v⟩]⟩ ∧
        (d.counts = db.counts ∨ d.counts = bump db.counts (name ++ [0]) 1)) ∧
      (rc = 0 → ∃ t k v, key = some k ∧ value = some v ∧ db.tables name = some t ∧
        ¬ (t.uniq = true ∧ (t.rows.find? (fun r => r.key = k)).isSome = true) ∧
        d.tables = setTable db.tables name
          ⟨t.uniq, t.rows ++ [⟨nextRowid t.rows, k, v⟩]⟩ ∧
        d.counts = bump db.counts (name ++ [0]) 1) ∧
      (Healthy db → Healthy d ∧
        (∀ t k v, db.tables name = some t → key = some k → value = some v →
          ¬ (t.uniq = true ∧ (t.rows.find? (fun r => r.key = k)).isSome = true) → rc = 0) ∧
        (∀ t, db.tables name = some t → key = none ∨ value = none →
          rc = SQLITE_CONSTRAINT)) ∧
      d.log = db.log ++ tr ∧ firstFailure tr = rc ∧ quietAfter tr = true ∧
      opens tr = closes tr + (if st.isSome then 1 else 0) := by
  unfold mdb_put_insert
  simp only [sqlite3_bind_blob, sqlite3_bind_text, increment_dbi_entries, ofText_some]
  have hch := chain_bind db _ _ _ 3 (.ofBlob value) (chain_bind db _ _ _ 2 (.ofBlob key)
    (chain_bind db _ _ _ 1 (.text (name ++ [0])) (chain_prepare db .insert_row)))
  generalize whenOk (whenOk (whenOk (sqlite3_prepare_v2 db Query.insert_row)
    (fun d s => sqlite3_bind d s 1 (.text (name ++ [0]))))
    (fun d s => sqlite3_bind d s 2 (.ofBlob key)))
    (fun d s => sqlite3_bind d s 3 (.ofBlob value)) = b at hch ⊢
  obtain ⟨a, ha1, ha2, ha3, hch⟩ : ∃ a, a 1 = some (.text (name ++ [0])) ∧
      argValue a 2 = .ofBlob key ∧ argValue a 3 = .ofBlob value ∧
      ChainRes db .insert_row a b := by
    refine ⟨_, ?_, ?_, ?_, hch⟩ <;> rfl
  replace ha1 := argTable_name a 1 name hn ha1
  rcases run_cases db _ _ b hch with
    ⟨h0, herr, hw, hnh, hk, tr, hl, hff, hq, hcl, hwr, hop⟩ |
    ⟨h0, c, d, tr, herr, hw, hnh, hk, hl, hff, hcl, hwr, hop⟩ |
    ⟨h0, d, tr, hw, ht, hc, hch', hh, hl, hff, hcl, hwr, hop⟩
  · obtain ⟨c, st, d⟩ := b
    simp only at h0 herr hk hl hff hop
    simp only [hw, h0, if_false]
    exact ⟨c, st, d, tr, rfl, fun _ => ⟨hk.1, hk.2.1⟩, fun h => absurd h (by simp [hwr]),
      fun h => absurd h h0, fun h => absurd h hnh, hl, hff, hq,
      by rw [hop, hcl, Nat.zero_add]⟩
  · obtain ⟨hc0, hcr, hcd⟩ := isError_ne c herr
    simp only [hw, h0, if_true, hcd, hc0, if_false]
    refine ⟨c, _, d, _, rfl, fun _ => ⟨hk.1, hk.2.1⟩, fun hwt => ?_, fun h => absurd h hc0,
      fun h => absurd h hnh, by rw [hl, List.append_assoc], ?_, ?_, ?_⟩
    · simp [wrote_append, hwr, wrote_cons, wrote_nil, isRowWrite, hcd] at hwt
    · simp [firstFailure_append, hff, firstFailure, mapped, hc0, hcd]
    · simp [quietAfter_append, hff, quietAfter, mapped, hc0, hcd]
    · simp [opens_append, closes_append, hop, hcl, opens_cons, closes_cons, opens_nil,
        closes_nil]
  · by_cases hnull : key = none ∨ value = none
    · rw [exec_insert_row_null a _ _ _ name key value ha1 ha2 ha3 hnull] at hw ht hc hch' hl
      have hnk : ∀ k v, key = some k → value = some v → False := by
        intro k v hk hv
        rcases hnull with h | h
        · rw [hk] at h
          exact absurd h (by simp)
        · rw [hv] at h
          exact absurd h (by simp)
      cases htb : db.tables name with
      | none =>
        simp only [htb] at hw ht hc hch' hl
        simp only [hw, h0, if_true]
        refine ⟨SQLITE_ERROR, some ⟨.insert_row, a, []⟩, d, _,
          by simp [SQLITE_ERROR, SQLITE_DONE], fun _ => ⟨ht, hc⟩, fun hwt => ?_,
          fun h => absurd h (by decide),
          fun h => ⟨hh h, fun t _ _ ht => by simp at ht, fun t ht => by simp at ht⟩,
          by rw [hl, List.append_assoc], ?_, ?_, ?_⟩
        · simp [wrote_append, hwr, wrote_cons, wrote_nil, isRowWrite, SQLITE_ERROR,
            SQLITE_DONE] at hwt
        · simp [firstFailure_append, hff, firstFailure, mapped, SQLITE_ERROR, SQLITE_DONE]
        · simp [quietAfter_append, hff, quietAfter, mapped, SQLITE_ERROR, SQLITE_DONE]
        · simp [opens_append, closes_append, hop, hcl, opens_cons, closes_cons, opens_nil,
            closes_nil]
      | some t =>
        simp only [htb] at hw ht hc hch' hl
        simp only [hw, h0, if_true]
        refine ⟨SQLITE_CONSTRAINT, some ⟨.insert_row, a, []⟩, d, _,
          by simp [SQLITE_CONSTRAINT, SQLITE_DONE], fun _ => ⟨ht, hc⟩, fun hwt => ?_,
          fun h => absurd h (by decide),
          fun h => ⟨hh h, fun _ k v _ hk hv => (hnk k v hk hv).elim, fun _ _ _ => rfl⟩,
          by rw [hl, List.append_assoc], ?_, ?_, ?_⟩
        · simp [wrote_append, hwr, wrote_cons, wrote_nil, isRowWrite, SQLITE_CONSTRAINT,
            SQLITE_DONE] at hwt
        · simp [firstFailure_append, hff, firstFailure, mapped, SQLITE_CONSTRAINT, SQLITE_DONE]
        · simp [quietAfter_append, hff, quietAfter, mapped, SQLITE_CONSTRAINT, SQLITE_DONE]
        · simp [opens_append, closes_append, hop, hcl, opens_cons, closes_cons, opens_nil,
            closes_nil]
    · obtain ⟨key, rfl⟩ : ∃ k, key = some k := by
        cases key with
        | none => exact absurd (Or.inl rfl) hnull
        | some k => exact ⟨k, rfl⟩
      obtain ⟨value, rfl⟩ : ∃ v, value = some v := by
        cases value with
        | none => exact absurd (Or.inr rfl) hnull
        | some v => exact ⟨v, rfl⟩
      rw [exec_insert_row a _ _ _ name key value ha1 ha2 ha3] at hw ht hc hch' hl
      cases htb : db.tables name with
      | none =>
        simp only [htb] at hw ht hc hch' hl
        simp only [hw, h0, if_true]
        refine ⟨SQLITE_ERROR, some ⟨.insert_row, a, []⟩, d, _,
          by simp [SQLITE_ERROR, SQLITE_DONE], fun _ => ⟨ht, hc⟩, fun hwt => ?_,
          fun h => absurd h (by decide),
          fun h => ⟨hh h, fun t _ _ ht => by simp at ht, fun t ht => by simp at ht⟩,
          by rw [hl, List.append_assoc], ?_, ?_, ?_⟩
        · simp [wrote_append, hwr, wrote_cons, wrote_nil, isRowWrite, SQLITE_ERROR,
            SQLITE_DONE] at hwt
        · simp [firstFailure_append, hff, firstFailure, mapped, SQLITE_ERROR, SQLITE_DONE]
        · simp [quietAfter_append, hff, quietAfter, mapped, SQLITE_ERROR, SQLITE_DONE]
        · simp [opens_append, closes_append, hop, hcl, opens_cons, closes_cons, opens_nil,
            closes_nil]
      | some t =>
        simp only [htb] at hw ht hc hch' hl
        by_cases hcon : t.uniq = true ∧ (t.rows.find? (fun r => r.key = key)).isSome = true
        · simp only [hcon, and_self, if_true] at hw ht hc hch' hl
          simp only [hw, h0, if_true]
          refine ⟨SQLITE_CONSTRAINT, some ⟨.insert_row, a, []⟩, d, _,
            by simp [SQLITE_CONSTRAINT, SQLITE_DONE], fun _ => ⟨ht, hc⟩, fun hwt => ?_,
            fun h => absurd h (by decide),
            fun h => ⟨hh h, fun t' k v ht' hk hv hncon => ?_,
              fun _ _ hnl => absurd hnl (by simp)⟩,
            by rw [hl, List.append_assoc], ?_, ?_, ?_⟩
          · simp [wrote_append, hwr, wrote_cons, wrote_nil, isRowWrite, SQLITE_CONSTRAINT,
              SQLITE_DONE] at hwt
          · obtain rfl : t = t' := by simpa using ht'
            obtain rfl : key = k := by simpa using hk
            exact absurd hcon hncon
          · simp [firstFailure_append, hff, firstFailure, mapped, SQLITE_CONSTRAINT, SQLITE_DONE]
          · simp [quietAfter_append, hff, quietAfter, mapped, SQLITE_CONSTRAINT, SQLITE_DONE]
          · simp [opens_append, closes_append, hop, hcl, opens_cons, closes_cons, opens_nil,
              closes_nil]
        · simp only [hcon, if_false] at hw ht hc hch' hl
          obtain ⟨rc2, d2, tr2, he2, ht2, hok2, hor2, hh2, hl2, ⟨hff2, hq2, hb2⟩, hw2⟩ :=
            add_dbi_entries_spec d name 1
          simp only [hw, h0, if_true, he2]
          refine ⟨rc2, some ⟨.insert_row, a, []⟩, d2, _, rfl, fun hwf => ?_,
            fun _ => ⟨t, key, value, rfl, rfl, rfl, ht2.trans ht, by rw [← hc]; exact hor2⟩,
            fun h => ⟨t, key, value, rfl, rfl, rfl, hcon, ht2.trans ht, by rw [hok2 h, hc]⟩,
            fun h => ⟨(hh2 (hh h)).2, fun _ _ _ _ _ _ _ => (hh2 (hh h)).1,
              fun _ _ hnl => absurd hnl (by simp)⟩,
            by rw [hl2, hl, List.append_assoc, List.append_assoc], ?_, ?_, ?_⟩
          · simp [wrote_append, wrote_cons, isRowWrite] at hwf
          · simp [firstFailure_append, hff, firstFailure, mapped, hff2]
          · simp [quietAfter_append, firstFailure_append, hff, firstFailure, quietAfter, mapped,
              hq2]
          · simp [opens_append, closes_append, hop, hcl, opens_cons, closes_cons, opens_nil,
              closes_nil, hb2]
            omega

/-- The prepare-and-bind sequence of `mdb_del` and what its statement executes. -/
theorem mdb_del_chain (db : sqlite3) (dbi : MDB_dbi_inner) (key : MDB_val)
    (value : Option MDB_val) :
    ∃ q a, (q = .delete_key_value ∨ q = .delete_key) ∧
      ChainRes db q a (mdb_del_stmt db dbi key value) ∧
      ∀ tables counts changes, exec q a tables counts changes =
        match tables dbi.name with
        | some t =>
          ⟨SQLITE_DONE, [],
            setTable tables dbi.name ⟨t.uniq, t.rows.filter (fun r => !delMatch dbi key value r)⟩,
            counts, (t.rows.filter (delMatch dbi key value)).length⟩
        | none => ⟨SQLITE_ERROR, [], tables, counts, changes⟩ := by
  unfold mdb_del_stmt
  simp only [sqlite3_bind_blob, sqlite3_bind_text, ofText_some]
  cases hmv : (dbi.dups && value.isSome)
  · refine ⟨.delete_key, fun i => if i = 2 then some (.ofBlob key) else if i = 1 then
      some (.text (dbi.name ++ [0])) else none, Or.inr rfl, ?_, ?_⟩
    · simpa using chain_bind db _ _ _ 2 (.ofBlob key)
        (chain_bind db _ _ _ 1 (.text (dbi.name ++ [0])) (chain_prepare db .delete_key))
    · intro tables counts changes
      rw [exec_delete_key _ _ _ _ dbi.name key
        (argTable_name _ 1 dbi.name dbi.nul_free (by rfl)) (by rfl)]
      have h1 : (fun r : Row => !decide (key = some r.key)) =
          fun r => !delMatch dbi key value r := by
        funext r
        simp [delMatch, hmv]
      have h2 : (fun r : Row => decide (key = some r.key)) = delMatch dbi key value := by
        funext r
        simp [delMatch, hmv]
      rw [h1, h2]
  · refine ⟨.delete_key_value, fun i => if i = 3 then some (.ofBlob (value.getD none)) else
      if i = 2 then some (.ofBlob key) else if i = 1 then some (.text (dbi.name ++ [0]))
      else none, Or.inl rfl, ?_, ?_⟩
    · have := chain_bind db _ _ _ 3 (.ofBlob (value.getD none))
        (chain_bind db _ _ _ 2 (.ofBlob key)
          (chain_bind db _ _ _ 1 (.text (dbi.name ++ [0])) (chain_prepare db .delete_key_value)))
      simpa [whenOk] using this
    · intro tables counts changes
      rw [exec_delete_key_value _ _ _ _ dbi.name key (value.getD none)
        (argTable_name _ 1 dbi.name dbi.nul_free (by rfl)) (by rfl) (by rfl)]
      have h1 : (fun r : Row =>
          !(decide (key = some r.key) && decide (value.getD none = some r.value))) =
          fun r => !delMatch dbi key value r := by
        funext r
        simp [delMatch, hmv]
      have h2 : (fun r : Row =>
          decide (key = some r.key) && decide (value.getD none = some r.value)) =
          delMatch dbi key value := by
        funext r
        simp [delMatch, hmv]
      rw [h1, h2]


/-- What the delete statement of `mdb_del` (with its counter update) does and
which calls it makes. -/
theorem mdb_del_delete_spec (db : sqlite3) (dbi : MDB_dbi_inner) (key : MDB_val)
    (value : Option MDB_val) :
    ∃ rc st d tr, mdb_del_delete db dbi key value = (rc, st, d) ∧
      (wrote tr = false → d.tables = db.tables ∧ d.counts = db.counts) ∧
      ((∀ t, db.tables dbi.name = some t →
        (t.rows.filter (delMatch dbi key value)).length = 0) → wrote tr = false) ∧
      (wrote tr = true → ∃ t, db.tables dbi.name = some t ∧
        d.tables = setTable db.tables dbi.name
          ⟨t.uniq, t.rows.filter (fun r => !delMatch dbi key value r)⟩ ∧
        (d.counts = db.counts ∨ d.counts = bump db.counts (dbi.name ++ [0]) (-1))) ∧
      (rc = 0 → ∃ t, db.tables dbi.name = some t ∧
        (t.rows.filter (delMatch dbi key value)).length ≠ 0 ∧
        d.tables = setTable db.tables dbi.name
          ⟨t.uniq, t.rows.filter (fun r => !delMatch dbi key value r)⟩ ∧
        d.counts = bump db.counts (dbi.name ++ [0]) (-1)) ∧
      (Healthy db → Healthy d ∧ ∀ t, db.tables dbi.name = some t →
        rc = if (t.rows.filter (delMatch dbi key value)).length = 0 then SQLITE_NOTFOUND
          else 0) ∧
      d.log = db.log ++ tr ∧ firstFailure tr = rc ∧ quietAfter tr = true ∧
      opens tr = closes tr + (if st.isSome then 1 else 0) := by
  unfold mdb_del_delete
  simp only [decrement_dbi_entries, sqlite3_changes]
  obtain ⟨q, a, hq, hch, hex⟩ := mdb_del_chain db dbi key value
  generalize mdb_del_stmt db dbi key value = b at hch ⊢
  rcases run_cases db _ _ b hch with
    ⟨h0, herr, hw, hnh, hk, tr, hl, hff, hqa, hcl, hwr, hop⟩ |
    ⟨h0, c, d, tr, herr, hw, hnh, hk, hl, hff, hcl, hwr, hop⟩ |
    ⟨h0, d, tr, hw, ht, hc, hch', hh, hl, hff, hcl, hwr, hop⟩
  · obtain ⟨c, st, d⟩ := b
    simp only at h0 herr hk hl hff hop
    simp only [hw, h0, if_false]
    exact ⟨c, st, d, tr, rfl, fun _ => ⟨hk.1, hk.2.1⟩, fun _ => hwr,
      fun h => absurd h (by simp [hwr]), fun h => absurd h h0,
      fun h => absurd h hnh, hl, hff, hqa, by rw [hop, hcl, Nat.zero_add]⟩
  · obtain ⟨hc0, hcr, hcd⟩ := isError_ne c herr
    simp only [hw, h0, if_true, hcd, hc0, if_false]
    have hwf : wrote (tr ++ [⟨.step, some q, c, db.changes⟩]) = false := by
      simp [wrote_append, hwr, wrote_cons, wrote_nil, isRowWrite, hcd]
    refine ⟨c, _, d, _, rfl, fun _ => ⟨hk.1, hk.2.1⟩, fun _ => hwf,
      fun h => absurd h (by simp [hwf]), fun h => absurd h hc0,
      fun h => absurd h hnh, by rw [hl, List.append_assoc], ?_, ?_, ?_⟩
    · rcases hq with rfl | rfl <;> simp [firstFailure_append, hff, firstFailure, mapped, hc0, hcd]
    · rcases hq with rfl | rfl <;> simp [quietAfter_append, hff, quietAfter, mapped, hc0, hcd]
    · simp [opens_append, closes_append, hop, hcl, opens_cons, closes_cons, opens_nil,
        closes_nil]
  · rw [hex] at hw ht hc hch' hl
    cases htb : db.tables dbi.name with
    | none =>
      simp only [htb] at hw ht hc hch' hl
      simp only [hw, h0, if_true]
      have hwf : wrote (tr ++ [⟨.step, some q, SQLITE_ERROR, db.changes⟩]) = false := by
        simp [wrote_append, hwr, wrote_cons, wrote_nil, isRowWrite, SQLITE_ERROR, SQLITE_DONE]
      refine ⟨SQLITE_ERROR, some ⟨q, a, []⟩, d, _,
        by simp [SQLITE_ERROR, SQLITE_DONE], fun _ => ⟨ht, hc⟩, fun _ => hwf,
        fun h => absurd h (by simp [hwf]),
        fun h => absurd h (by decide), fun h => ⟨hh h, fun t ht => by simp at ht⟩,
        by rw [hl, List.append_assoc], ?_, ?_, ?_⟩
      · rcases hq with rfl | rfl <;>
          simp [firstFailure_append, hff, firstFailure, mapped, SQLITE_ERROR, SQLITE_DONE]
      · rcases hq with rfl | rfl <;>
          simp [quietAfter_append, hff, quietAfter, mapped, SQLITE_ERROR, SQLITE_DONE]
      · simp [opens_append, closes_append, hop, hcl, opens_cons, closes_cons, opens_nil,
          closes_nil]
    | some t =>
      simp only [htb] at hw ht hc hch' hl
      by_cases hn : (t.rows.filter (delMatch dbi key value)).length = 0
      · simp only [hw, h0, if_true, hch', hn]
        have hwf : wrote (tr ++ [⟨.step, some q, SQLITE_DONE,
            (t.rows.filter (delMatch dbi key value)).length⟩]) = false := by
          simp [wrote_append, hwr, wrote_cons, wrote_nil, isRowWrite, hn]
        refine ⟨SQLITE_NOTFOUND, some ⟨q, a, []⟩, d, _, by simp [SQLITE_NOTFOUND],
          fun _ => ⟨?_, hc⟩, fun _ => hwf, fun h => absurd h (by simp [hwf]),
          fun h => absurd h (by decide),
          fun h => ⟨hh h, fun t' ht' => ?_⟩,
          by rw [hl, List.append_assoc], ?_, ?_, ?_⟩
        · rw [ht, filter_not_of_filter_nil t.rows _ hn]
          exact setTable_self _ _ _ htb
        · obtain rfl : t = t' := by simpa using ht'
          simp [hn]
        · rcases hq with rfl | rfl <;>
            simp [firstFailure_append, hff, firstFailure, mapped, hn, SQLITE_NOTFOUND]
        · rcases hq with rfl | rfl <;>
            simp [quietAfter_append, hff, quietAfter, mapped, hn, SQLITE_NOTFOUND]
        · simp [opens_append, closes_append, hop, hcl, opens_cons, closes_cons, opens_nil,
            closes_nil]
      · obtain ⟨rc2, d2, tr2, he2, ht2, hok2, hor2, hh2, hl2, ⟨hff2, hq2, hb2⟩, hw2⟩ :=
          add_dbi_entries_spec d dbi.name (-1)
        simp only [hw, h0, if_true, hch', hn, if_false, he2]
        refine ⟨rc2, some ⟨q, a, []⟩, d2, _, rfl, fun hwf => ?_, fun hall => ?_,
          fun _ => ⟨t, rfl, ht2.trans ht, by rw [← hc]; exact hor2⟩,
          fun h => ⟨t, rfl, hn, ht2.trans ht, by rw [hok2 h, hc]⟩,
          fun h => ⟨(hh2 (hh h)).2, fun t' ht' => ?_⟩,
          by rw [hl2, hl, List.append_assoc, List.append_assoc], ?_, ?_, ?_⟩
        · rcases hq with rfl | rfl <;>
            simp [wrote_append, wrote_cons, isRowWrite, hn] at hwf
        · exact absurd (hall t rfl) hn
        · obtain rfl : t = t' := by simpa using ht'
          simp [hn, (hh2 (hh h)).1]
        · rcases hq with rfl | rfl <;>
            simp [firstFailure_append, hff, firstFailure, mapped, hff2, hn]
        · rcases hq with rfl | rfl <;>
            simp [quietAfter_append, firstFailure_append, hff, firstFailure, quietAfter, mapped,
              hq2, hn]
        · simp [opens_append, closes_append, hop, hcl, opens_cons, closes_cons, opens_nil,
            closes_nil, hb2]
          omega


/-- The closing `sqlite3_finalize` of `mdb_put` and `mdb_del`. -/
theorem finish_cases (dw : sqlite3) (st : Option sqlite3_stmt) (trw : List Call) (rcw : Int) :
    ∃ cf df e, sqlite3_finalize dw st = (cf, df) ∧ Kept dw df ∧
      (Healthy dw → cf = 0 ∧ Healthy df) ∧ df.log = dw.log ++ [e] ∧
      wrote (trw ++ [e]) = wrote trw ∧
      (firstFailure trw = rcw → quietAfter trw = true →
        opens trw = closes trw + (if st.isSome then 1 else 0) →
        TraceOk (trw ++ [e]) (if rcw = 0 then cf else rcw)) := by
  obtain ⟨cf, df, hf, hkf, hlf, hhf⟩ := finalize_cases dw st
  refine ⟨cf, df, _, hf, hkf, hhf, hlf, ?_, fun hff hq hop => ?_⟩
  · simp [wrote_append, wrote_cons, wrote_nil, isRowWrite]
  · by_cases h0 : rcw = 0 <;> by_cases hc : cf = 0 <;> cases st <;>
      simp [TraceOk, firstFailure_append, quietAfter_append, opens_append, closes_append,
        hff, hq, hop, h0, hc, opens_cons, closes_cons, opens_nil, closes_nil, isFinalize,
        firstFailure, quietAfter, mapped]

theorem find_key_some (rows : List Row) (k : Bytes) :
    rows.find? (fun r => some k = some r.key) = rows.find? (fun r => r.key = k) := by
  congr
  funext r
  simp [eq_comm]

/-- What `mdb_put` does in a writable transaction and which calls it makes.
The counter row it updates after an insert is the one stored under the name
with its terminator. -/
theorem mdb_put_spec (txn : MDB_txn) (dbi : MDB_dbi_inner) (key value : MDB_val) (flags : Nat)
    (hcw : txn.can_write = true) :
    ∃ rc d tr, mdb_put txn dbi key value flags = (rc, { txn with db_conn := d }) ∧
      d.log = txn.db_conn.log ++ tr ∧ TraceOk tr rc ∧
      (wrote tr = false →
        d.tables = txn.db_conn.tables ∧ d.counts = txn.db_conn.counts) ∧
      (wrote tr = true → ∃ t k v, key = some k ∧ value = some v ∧
        txn.db_conn.tables dbi.name = some t ∧
        ((∃ r, t.rows.find? (fun r => r.key = k) = some r ∧
            d.tables = setTable txn.db_conn.tables dbi.name
              ⟨t.uniq, t.rows.map
                (fun x => if x.rowid = r.rowid then { x with value := v } else x)⟩ ∧
            d.counts = txn.db_conn.counts) ∨
          (d.tables = setTable txn.db_conn.tables dbi.name
              ⟨t.uniq, t.rows ++ [⟨nextRowid t.rows, k, v⟩]⟩ ∧
            (d.counts = txn.db_conn.counts ∨
              d.counts = bump txn.db_conn.counts (dbi.name ++ [0]) 1)))) ∧
      (rc = 0 → ∃ t k v, key = some k ∧ value = some v ∧
        txn.db_conn.tables dbi.name = some t ∧
        ((dbi.dups = false ∧ ∃ r, t.rows.find? (fun r => r.key = k) = some r ∧
            d.tables = setTable txn.db_conn.tables dbi.name
              ⟨t.uniq, t.rows.map
                (fun x => if x.rowid = r.rowid then { x with value := v } else x)⟩ ∧
            d.counts = txn.db_conn.counts) ∨
          ((dbi.dups = true ∨ t.rows.find? (fun r => r.key = k) = none) ∧
            d.tables = setTable txn.db_conn.tables dbi.name
              ⟨t.uniq, t.rows ++ [⟨nextRowid t.rows, k, v⟩]⟩ ∧
            d.counts = bump txn.db_conn.counts (dbi.name ++ [0]) 1))) ∧
      (Healthy txn.db_conn → Healthy d ∧
        ∀ t k v, txn.db_conn.tables dbi.name = some t → key = some k → value = some v →
          ¬ (dbi.dups = true ∧ t.uniq = true ∧
            (t.rows.find? (fun r => r.key = k)).isSome = true) → rc = 0) := by
  unfold mdb_put
  simp only [hcw, Bool.not_true, Bool.false_eq_true, if_false]
  cases hd : dbi.dups
  · -- without duplicates: look the key up first
    obtain ⟨rc1, rowid, d1, tr1, he1, ht1, hc1, hok1, hh1, hl1, ⟨hff1, hq1, hb1⟩, hw1⟩ :=
      mdb_put_select_spec txn.db_conn dbi.name key dbi.nul_free
    simp only [Bool.not_false, if_true, he1]
    by_cases h1 : rc1 = 0
    · obtain ⟨t, htb, hrow⟩ := hok1 h1
      subst h1
      cases hfd : t.rows.find? (fun r => key = some r.key) with
      | none =>
        rw [hfd] at hrow
        subst hrow
        obtain ⟨rc2, st, d2, tr2, he2, hun2, hwt2, hok2, hh2, hl2, hff2, hq2, hb2⟩ :=
          mdb_put_insert_spec d1 dbi.name key value dbi.nul_free
        obtain ⟨cf, df, e, hf, hkf, hhf, hlf, hwf, htr⟩ := finish_cases d2 st (tr1 ++ tr2) rc2
        simp only [Option.map_none', if_true, he2, hf]
        refine ⟨_, df, tr1 ++ tr2 ++ [e], rfl,
          by simp only [hlf, hl2, hl1, List.append_assoc], ?_, fun hwr => ?_, fun hwr => ?_,
          fun h => ?_, fun h => ?_⟩
        · apply htr
          · simp [firstFailure_append, hff1, hff2]
          · simp [quietAfter_append, hff1, hq2]
          · simp [opens_append, closes_append, hb1, hb2]; omega
        · rw [hwf, wrote_append, hw1, Bool.false_or] at hwr
          exact ⟨hkf.1.trans ((hun2 hwr).1.trans ht1), hkf.2.1.trans ((hun2 hwr).2.trans hc1)⟩
        · rw [hwf, wrote_append, hw1, Bool.false_or] at hwr
          obtain ⟨t', k, v, hk, hv, htb', ht', hc'⟩ := hwt2 hwr
          rw [ht1] at htb' ht'
          rw [hc1] at hc'
          obtain rfl : t = t' := by simpa [htb] using htb'
          exact ⟨t, k, v, hk, hv, htb, Or.inr ⟨hkf.1.trans ht', by rw [hkf.2.1]; exact hc'⟩⟩
        · have h2 : rc2 = 0 := by
            by_contra hne
            simp [hne] at h
          obtain ⟨t', k, v, hk, hv, htb', -, ht', hc'⟩ := hok2 h2
          rw [ht1] at htb'
          obtain rfl : t = t' := by simpa [htb] using htb'
          subst hk
          rw [find_key_some] at hfd
          exact ⟨t, k, v, rfl, hv, htb,
            Or.inr ⟨Or.inr hfd, by rw [hkf.1, ht', ht1], by rw [hkf.2.1, hc', hc1]⟩⟩
        · have hd1 := (hh1 h).1
          refine ⟨(hhf (hh2 hd1).1).2, fun t' k v htb' hk hv _ => ?_⟩
          obtain rfl : t = t' := by simpa [htb] using htb'
          subst hk
          rw [find_key_some] at hfd
          have h2 : rc2 = 0 :=
            (hh2 hd1).2.1 t k v (by rw [ht1]; exact htb) rfl hv (by simp [hfd])
          simp [h2, (hhf (hh2 hd1).1).1]
      | some r =>
        rw [hfd] at hrow
        subst hrow
        have hkey : key = some r.key := by
          simpa using List.find?_some hfd
        subst hkey
        rw [find_key_some] at hfd
        have hmem : (t.rows.filter (fun x => x.rowid = r.rowid)).length ≠ 0 := by
          have hr : r ∈ t.rows.filter (fun x => x.rowid = r.rowid) := by
            simp [List.mem_filter, List.mem_of_find?_eq_some hfd]
          intro h0
          rw [List.length_eq_zero] at h0
          rw [h0] at hr
          exact absurd hr (by simp)
        obtain ⟨rc2, st, d2, tr2, he2, hcs2, hun2, hwt2, hok2, hh2, hl2, hff2, hq2, hb2⟩ :=
          mdb_put_update_spec d1 dbi.name value r.rowid dbi.nul_free
        obtain ⟨cf, df, e, hf, hkf, hhf, hlf, hwf, htr⟩ := finish_cases d2 st (tr1 ++ tr2) rc2
        simp only [Option.map_some', if_true, he2, hf]
        refine ⟨_, df, tr1 ++ tr2 ++ [e], rfl,
          by simp only [hlf, hl2, hl1, List.append_assoc], ?_, fun hwr => ?_, fun hwr => ?_,
          fun h => ?_, fun h => ?_⟩
        · apply htr
          · simp [firstFailure_append, hff1, hff2]
          · simp [quietAfter_append, hff1, hq2]
          · simp [opens_append, closes_append, hb1, hb2]; omega
        · rw [hwf, wrote_append, hw1, Bool.false_or] at hwr
          exact ⟨hkf.1.trans ((hun2 hwr).trans ht1), hkf.2.1.trans (hcs2.trans hc1)⟩
        · rw [hwf, wrote_append, hw1, Bool.false_or] at hwr
          obtain ⟨t', v, hv, htb', ht'⟩ := hwt2 hwr
          rw [ht1] at htb' ht'
          obtain rfl : t = t' := by simpa [htb] using htb'
          exact ⟨t, r.key, v, rfl, hv, htb,
            Or.inl ⟨r, hfd, hkf.1.trans ht', hkf.2.1.trans (hcs2.trans hc1)⟩⟩
        · have h2 : rc2 = 0 := by
            by_contra hne
            simp [hne] at h
          obtain ⟨t', htb', hcase⟩ := hok2 h2
          rw [ht1] at htb'
          obtain rfl : t = t' := by simpa [htb] using htb'
          rcases hcase with ⟨v, hv, ht'⟩ | ⟨-, hlen, -⟩
          · exact ⟨t, r.key, v, rfl, hv, htb, Or.inl ⟨trivial, r, hfd, by rw [hkf.1, ht', ht1],
              by rw [hkf.2.1, hcs2, hc1]⟩⟩
          · exact absurd hlen hmem
        · have hd1 := (hh1 h).1
          refine ⟨(hhf (hh2 hd1).1).2, fun t' k v htb' _ hv _ => ?_⟩
          have h2 : rc2 = 0 := (hh2 hd1).2 t' v (by rw [ht1]; exact htb') hv
          simp [h2, (hhf (hh2 hd1).1).1]
    · -- the lookup failed: nothing else runs
      obtain ⟨cf, df, e, hf, hkf, hhf, hlf, hwf, htr⟩ := finish_cases d1 none tr1 rc1
      have hw : (match rowid with
          | some _ => (rc1, (none : Option sqlite3_stmt), d1)
          | none => (rc1, none, d1)) = (rc1, none, d1) := by
        cases rowid <;> rfl
      simp only [h1, if_false, hw, hf]
      refine ⟨rc1, df, tr1 ++ [e], rfl, by rw [hlf, hl1, List.append_assoc], ?_,
        fun _ => ⟨hkf.1.trans ht1, hkf.2.1.trans hc1⟩,
        fun hwr => absurd hwr (by simp [hwf, hw1]), fun h => absurd h h1, fun h => ?_⟩
      · simpa [h1] using htr hff1 hq1 (by simpa using hb1)
      · refine ⟨(hhf (hh1 h).1).2, fun t _ _ htb _ _ _ => (hh1 h).2 t htb⟩
  · -- with duplicates: always insert
    obtain ⟨rc2, st, d2, tr2, he2, hun2, hwt2, hok2, hh2, hl2, hff2, hq2, hb2⟩ :=
      mdb_put_insert_spec txn.db_conn dbi.name key value dbi.nul_free
    obtain ⟨cf, df, e, hf, hkf, hhf, hlf, hwf, htr⟩ := finish_cases d2 st tr2 rc2
    simp only [Bool.not_true, Bool.false_eq_true, if_false, if_true, he2, hf]
    refine ⟨_, df, tr2 ++ [e], rfl, by rw [hlf, hl2, List.append_assoc], htr hff2 hq2 hb2,
      fun hwr => ?_, fun hwr => ?_, fun h => ?_, fun h => ?_⟩
    · rw [hwf] at hwr
      exact ⟨hkf.1.trans (hun2 hwr).1, hkf.2.1.trans (hun2 hwr).2⟩
    · rw [hwf] at hwr
      obtain ⟨t, k, v, hk, hv, htb, ht', hc'⟩ := hwt2 hwr
      exact ⟨t, k, v, hk, hv, htb, Or.inr ⟨hkf.1.trans ht', by rw [hkf.2.1]; exact hc'⟩⟩
    · have h2 : rc2 = 0 := by
        by_contra hne
        simp [hne] at h
      obtain ⟨t, k, v, hk, hv, htb, -, ht', hc'⟩ := hok2 h2
      exact ⟨t, k, v, hk, hv, htb,
        Or.inr ⟨Or.inl trivial, by rw [hkf.1, ht'], by rw [hkf.2.1, hc']⟩⟩
    · refine ⟨(hhf (hh2 h).1).2, fun t k v htb hk hv hn => ?_⟩
      have h2 : rc2 = 0 := (hh2 h).2.1 t k v htb hk hv (fun hc => hn ⟨trivial, hc.1, hc.2⟩)
      simp [h2, (hhf (hh2 h).1).1]


/-- What `mdb_del` does in a writable transaction and which calls it makes.
Whatever number of rows the delete removes, the counter update adds -1, to the
counter row stored under the name with its terminator. -/
theorem mdb_del_spec (txn : MDB_txn) (dbi : MDB_dbi_inner) (key : MDB_val)
    (value : Option MDB_val) (hcw : txn.can_write = true) :
    ∃ rc d tr, mdb_del txn dbi key value = (rc, { txn with db_conn := d }) ∧
      d.log = txn.db_conn.log ++ tr ∧ TraceOk tr rc ∧
      (wrote tr = false →
        d.tables = txn.db_conn.tables ∧ d.counts = txn.db_conn.counts) ∧
      ((∀ t, txn.db_conn.tables dbi.name = some t →
        (t.rows.filter (delMatch dbi key value)).length = 0) → wrote tr = false) ∧
      (wrote tr = true → ∃ t, txn.db_conn.tables dbi.name = some t ∧
        d.tables = setTable txn.db_conn.tables dbi.name
          ⟨t.uniq, t.rows.filter (fun r => !delMatch dbi key value r)⟩ ∧
        (d.counts = txn.db_conn.counts ∨ d.counts = bump txn.db_conn.counts (dbi.name ++ [0]) (-1))) ∧
      (rc = 0 → ∃ t, txn.db_conn.tables dbi.name = some t ∧
        (t.rows.filter (delMatch dbi key value)).length ≠ 0 ∧
        d.tables = setTable txn.db_conn.tables dbi.name
          ⟨t.uniq, t.rows.filter (fun r => !delMatch dbi key value r)⟩ ∧
        d.counts = bump txn.db_conn.counts (dbi.name ++ [0]) (-1)) ∧
      (Healthy txn.db_conn → Healthy d ∧ ∀ t, txn.db_conn.tables dbi.name = some t →
        rc = if (t.rows.filter (delMatch dbi key value)).length = 0 then SQLITE_NOTFOUND
          else 0) := by
  unfold mdb_del
  simp only [hcw, Bool.not_true, Bool.false_eq_true, if_false]
  obtain ⟨rc2, st, d2, tr2, he2, hun2, hnm2, hwt2, hok2, hh2, hl2, hff2, hq2, hb2⟩ :=
    mdb_del_delete_spec txn.db_conn dbi key value
  obtain ⟨cf, df, e, hf, hkf, hhf, hlf, hwf, htr⟩ := finish_cases d2 st tr2 rc2
  simp only [he2, hf]
  refine ⟨_, df, tr2 ++ [e], rfl, by rw [hlf, hl2, List.append_assoc], htr hff2 hq2 hb2,
    fun hwr => ?_, fun hall => ?_, fun hwr => ?_, fun h => ?_, fun h => ?_⟩
  · rw [hwf] at hwr
    exact ⟨hkf.1.trans (hun2 hwr).1, hkf.2.1.trans (hun2 hwr).2⟩
  · rw [hwf]
    exact hnm2 hall
  · rw [hwf] at hwr
    obtain ⟨t, htb, ht', hc'⟩ := hwt2 hwr
    exact ⟨t, htb, hkf.1.trans ht', by rw [hkf.2.1]; exact hc'⟩
  · have h2 : rc2 = 0 := by
      by_contra hne
      simp [hne] at h
    obtain ⟨t, htb, hn, ht', hc'⟩ := hok2 h2
    exact ⟨t, htb, hn, by rw [hkf.1, ht'], by rw [hkf.2.1, hc']⟩
  · refine ⟨(hhf (hh2 h).1).2, fun t htb => ?_⟩
    have h2 := (hh2 h).2 t htb
    by_cases hn : (t.rows.filter (delMatch dbi key value)).length = 0
    · simp only [hn, if_true] at h2 ⊢
      simp [h2, SQLITE_NOTFOUND]
    · simp only [hn, if_false] at h2 ⊢
      simp [h2, (hhf (hh2 h).1).1]

theorem cstr_idem (b : Bytes) : cstr (cstr b) = cstr b := by
  induction b with
  | nil => rfl
  | cons x rest ih =>
    simp only [cstr] at ih ⊢
    by_cases hx : x = 0
    · simp [List.takeWhile_cons, hx]
    · simp [List.takeWhile_cons, hx, ih]

/-- What one statement of `mdb_dbi_open` does and which calls it makes. -/
theorem mdb_dbi_open_stmt_spec (db : sqlite3) (q : Query) (name : Bytes)
    (hq : ∃ u, q = .create_table u ∨ q = .insert_entry_count) :
    ∃ rc d tr, mdb_dbi_open_stmt db q name = (rc, d) ∧
      (rc = 0 → ∃ a, argTable a 1 = some (cstr name) ∧ argText a 1 = some (cstr name) ∧
        d.tables = (exec q a db.tables db.counts db.changes).tables ∧
        d.counts = (exec q a db.tables db.counts db.changes).counts) ∧
      (Healthy db → rc = 0 ∧ Healthy d) ∧
      d.log = db.log ++ tr ∧ TraceOk tr rc := by
  unfold mdb_dbi_open_stmt
  simp only [sqlite3_bind_text, ofText_some]
  have hch := chain_bind db _ _ _ 1 (.text (cstr name)) (chain_prepare db q)
  generalize whenOk (sqlite3_prepare_v2 db q)
    (fun d s => sqlite3_bind d s 1 (.text (cstr name))) = b at hch ⊢
  obtain ⟨a, ha, hch⟩ : ∃ a, a 1 = some (.text (cstr name)) ∧ ChainRes db q a b := by
    refine ⟨_, ?_, hch⟩
    rfl
  have ha1 : argTable a 1 = some (cstr name) := by simp [argTable, ha, cstr_idem]
  have ha2 : argText a 1 = some (cstr name) := by simp [argText, ha]
  have hcode : (exec q a db.tables db.counts db.changes).code = SQLITE_DONE := by
    obtain ⟨u, rfl | rfl⟩ := hq
    · rw [exec_create_table a _ _ _ u (cstr name) ha1]
    · rw [exec_insert_entry_count a _ _ _ (cstr name) ha2]
  have hmap : ∀ c ch, mapped ⟨.step, some q, c, ch⟩ = if c = SQLITE_DONE then 0 else c := by
    intro c ch
    obtain ⟨u, rfl | rfl⟩ := hq <;> rfl
  have hfin : ∀ (o : Option Query) c ch, mapped ⟨.finalize, o, c, ch⟩ = c := fun _ _ _ => rfl
  rcases run_cases db _ _ b hch with
    ⟨h0, herr, hw, hnh, hk, tr, hl, hff, hqa, hcl, hwr, hop⟩ |
    ⟨h0, c, d, tr, herr, hw, hnh, hk, hl, hff, hcl, hwr, hop⟩ |
    ⟨h0, d, tr, hw, ht, hc, hch', hh, hl, hff, hcl, hwr, hop⟩
  · obtain ⟨c, st, d⟩ := b
    simp only at h0 herr hk hl hff hop
    obtain ⟨cf, df, hf, hkf, hlf, hhf⟩ := finalize_cases d st
    simp only [hw, hf, h0, if_false]
    refine ⟨c, df, _, rfl, fun h => absurd h h0, fun h => absurd h hnh,
      by rw [hlf, hl, List.append_assoc], ?_⟩
    cases st <;>
      simp [TraceOk, firstFailure_append, quietAfter_append, opens_append, closes_append,
        hff, hqa, hcl, hop, h0, opens_cons, closes_cons, opens_nil, closes_nil, isFinalize]
  · obtain ⟨hc0, hcr, hcd⟩ := isError_ne c herr
    obtain ⟨cf, df, hf, hkf, hlf, hhf⟩ := finalize_cases d (some ⟨q, a, []⟩)
    simp only [hw, hf, h0, if_true, hcd, hc0, if_false]
    refine ⟨c, df, _, rfl, fun h => absurd h hc0, fun h => absurd h hnh,
      by rw [hlf, hl, List.append_assoc, List.append_assoc], ?_⟩
    simp [TraceOk, firstFailure_append, quietAfter_append, opens_append, closes_append,
      hff, hcl, hop, hc0, hcd, opens_cons, closes_cons, opens_nil, closes_nil,
      isFinalize, firstFailure, quietAfter, hmap, hfin]
  · obtain ⟨cf, df, hf, hkf, hlf, hhf⟩ := finalize_cases d
      (some ⟨q, a, (exec q a db.tables db.counts db.changes).row⟩)
    simp only [hw, hf, h0, if_true, hcode]
    refine ⟨cf, df, _, rfl, fun _ => ⟨a, ha1, ha2, hkf.1.trans ht, hkf.2.1.trans hc⟩,
      fun h => hhf (hh h), by rw [hlf, hl, List.append_assoc, List.append_assoc], ?_⟩
    by_cases hcf : cf = 0 <;>
      simp [TraceOk, firstFailure_append, quietAfter_append, opens_append, closes_append,
        hff, hcl, hop, hcf, opens_cons, closes_cons, opens_nil, closes_nil, isFinalize,
        firstFailure, quietAfter, hmap, hcode, hfin]


/-- What `mdb_dbi_open` does and which calls it makes: the handle is named by
the C string `name`, and on success the backing table and the counter row of
that name exist, while the counter row under the name with a terminator, the
one `add_dbi_entries` looks for, is as it was. -/
theorem mdb_dbi_open_spec (MDB_DUPSORT : Nat) (txn : MDB_txn) (name : Bytes) (flags : Nat) :
    ∃ rc d dbi tr, mdb_dbi_open MDB_DUPSORT txn name flags =
        (rc, { txn with db_conn := d }, dbi) ∧
      dbi.name = cstr name ∧ dbi.dups = decide ((flags &&& MDB_DUPSORT) = MDB_DUPSORT) ∧
      d.log = txn.db_conn.log ++ tr ∧ TraceOk tr rc ∧
      (rc = 0 → (d.tables dbi.name).isSome = true ∧ (d.counts dbi.name).isSome = true ∧
        d.counts (dbi.name ++ [0]) = txn.db_conn.counts (dbi.name ++ [0])) ∧
      (Healthy txn.db_conn → rc = 0 ∧ Healthy d) := by
  unfold mdb_dbi_open
  obtain ⟨rc1, d1, tr1, he1, hok1, hh1, hl1, hff1, hq1, hb1⟩ :=
    mdb_dbi_open_stmt_spec txn.db_conn
      (.create_table (!decide ((flags &&& MDB_DUPSORT) = MDB_DUPSORT))) name ⟨_, Or.inl rfl⟩
  simp only [he1]
  by_cases h1 : rc1 = 0
  · obtain ⟨rc2, d2, tr2, he2, hok2, hh2, hl2, hff2, hq2, hb2⟩ :=
      mdb_dbi_open_stmt_spec d1 .insert_entry_count name ⟨true, Or.inr rfl⟩
    simp only [h1, if_true, he2]
    refine ⟨rc2, d2, _, tr1 ++ tr2, rfl, rfl, rfl, by rw [hl2, hl1, List.append_assoc], ?_,
      fun h2 => ?_, fun h => hh2 (hh1 h).2⟩
    · subst h1
      refine ⟨?_, ?_, ?_⟩
      · simp [firstFailure_append, hff1, hff2]
      · simp [quietAfter_append, hff1, hq2]
      · simp [opens_append, closes_append, hb1, hb2]
    · obtain ⟨a1, ha1, -, ht1, hc1⟩ := hok1 h1
      obtain ⟨a2, -, ha2, ht2, hc2⟩ := hok2 h2
      rw [exec_insert_entry_count a2 _ _ _ (cstr name) ha2] at ht2 hc2
      rw [exec_create_table a1 _ _ _ _ (cstr name) ha1] at ht1 hc1
      simp only at ht1 hc1 ht2 hc2
      have hne : cstr name ++ [0] ≠ cstr name := by
        intro h
        have := congrArg List.length h
        simp at this
      refine ⟨?_, ?_, ?_⟩
      · rw [ht2, ht1]
        cases htn : txn.db_conn.tables (cstr name) <;> simp [setTable, htn]
      · rw [hc2]
        cases hcn : d1.counts (cstr name) <;> simp [setCount, hcn]
      · rw [hc2, ← hc1]
        cases hcn : d1.counts (cstr name) <;> simp [setCount, hne]
  · simp only [h1, if_false]
    exact ⟨rc1, d1, _, tr1, rfl, rfl, rfl, hl1, ⟨hff1, hq1, hb1⟩, fun h => absurd h h1,
      fun h => absurd (hh1 h).1 h1⟩
/-! ## The claims -/

theorem callsSince_append (a b : sqlite3) (tr : List Call) (h : b.log = a.log ++ tr) :
    callsSince a b = tr := by
  simp [callsSince, h]

theorem bump_other (cs : Bytes → Option Int) (name : Bytes) (delta : Int) (n : Bytes)
    (h : n ≠ name) : bump cs name delta n = cs n := by
  unfold bump
  cases cs name <;> simp [setCount, h]

theorem name_ne_terminated (name : Bytes) : name ≠ name ++ [0] := by
  intro h
  have := congrArg List.length h
  simp at this

/-- Whatever `mdb_put` does, the counter row stored under the name of the
sub-database is as it was. -/
theorem mdb_put_count_kept (txn : MDB_txn) (dbi : MDB_dbi_inner) (key value : MDB_val)
    (flags : Nat) :
    (mdb_put txn dbi key value flags).2.db_conn.counts dbi.name =
      txn.db_conn.counts dbi.name := by
  by_cases hcw : txn.can_write = true
  · obtain ⟨rc, d, tr, he, -, -, hun, hwt, -⟩ := mdb_put_spec txn dbi key value flags hcw
    rw [he]
    cases hw : wrote tr with
    | false => rw [(hun hw).2]
    | true =>
      obtain ⟨t, k, v, -, -, -, hcase⟩ := hwt hw
      rcases hcase with ⟨r, -, -, hc⟩ | ⟨-, hc | hc⟩
      · rw [hc]
      · rw [hc]
      · simp only [hc]
        exact bump_other _ _ _ _ (name_ne_terminated dbi.name)
  · simp [mdb_put, hcw]

/-- Whatever `mdb_del` does, the counter row stored under the name of the
sub-database is as it was. -/
theorem mdb_del_count_kept (txn : MDB_txn) (dbi : MDB_dbi_inner) (key : MDB_val)
    (value : Option MDB_val) :
    (mdb_del txn dbi key value).2.db_conn.counts dbi.name = txn.db_conn.counts dbi.name := by
  by_cases hcw : txn.can_write = true
  · obtain ⟨rc, d, tr, he, -, -, hun, -, hwt, -⟩ := mdb_del_spec txn dbi key value hcw
    rw [he]
    cases hw : wrote tr with
    | false => rw [(hun hw).2]
    | true =>
      obtain ⟨t, -, -, hc | hc⟩ := hwt hw
      · rw [hc]
      · simp only [hc]
        exact bump_other _ _ _ _ (name_ne_terminated dbi.name)
  · simp [mdb_del, hcw]

/-- C2: a transaction begun with `MDB_RDONLY` has `can_write` false, and on a
transaction whose `can_write` is false `mdb_put` and `mdb_del` return `EACCES`
and hand back the transaction as it was, so that no table row and no
`_entry_counts` row differs. -/
theorem C2_read_only_put_del_denied (MDB_RDONLY : Nat) (pool : List sqlite3)
    (opened : Int × sqlite3) (flags : Nat) (hro : flags &&& MDB_RDONLY = MDB_RDONLY)
    (txn : MDB_txn) (hcw : txn.can_write = false) (dbi : MDB_dbi_inner) (key value : MDB_val)
    (v : Option MDB_val) (pflags : Nat) :
    (mdb_txn_begin MDB_RDONLY pool opened flags).2.1.can_write = false ∧
      mdb_put txn dbi key value pflags = (EACCES, txn) ∧
      mdb_del txn dbi key v = (EACCES, txn) := by
  refine ⟨?_, ?_, ?_⟩
  · unfold mdb_txn_begin
    simp only [hro]
    split_ifs <;> simp
  · simp [mdb_put, hcw]
  · simp [mdb_del, hcw]

theorem C2_read_only_put_del_denied_witness :
    (131072 &&& 131072 = 131072) ∧
      (⟨sampleDb [⟨1, [1], [10]⟩] 1 [], [], false⟩ : MDB_txn).can_write = false ∧
      (mdb_txn_begin 131072 [] (0, sampleDb [] 0 []) 131072).2.1.can_write = false ∧
      mdb_put ⟨sampleDb [⟨1, [1], [10]⟩] 1 [], [], false⟩ uniqueDbi (some [1]) (some [11]) 0 =
        (EACCES, ⟨sampleDb [⟨1, [1], [10]⟩] 1 [], [], false⟩) ∧
      mdb_del ⟨sampleDb [⟨1, [1], [10]⟩] 1 [], [], false⟩ uniqueDbi (some [1]) none =
        (EACCES, ⟨sampleDb [⟨1, [1], [10]⟩] 1 [], [], false⟩) :=
  ⟨by decide, rfl,
    C2_read_only_put_del_denied 131072 [] (0, sampleDb [] 0 []) 131072 (by decide)
      ⟨sampleDb [⟨1, [1], [10]⟩] 1 [], [], false⟩ rfl uniqueDbi (some [1]) (some [11]) none 0⟩


theorem delMatch_filter_nil (dbi : MDB_dbi_inner) (key : MDB_val) (value : Option MDB_val)
    (rows : List Row)
    (hno : ∀ r ∈ rows,
      ¬ (key = some r.key ∧ (dbi.dups = true → ∀ v, value = some v → v = some r.value))) :
    (rows.filter (delMatch dbi key value)).length = 0 := by
  rw [List.length_eq_zero, List.filter_eq_nil_iff]
  intro r hr hm
  apply hno r hr
  unfold delMatch at hm
  cases hd : dbi.dups <;> cases value <;> simp_all

/-- C6: in a writable transaction, when the sub-database's table holds no row
under `key` (with duplicates allowed and a value given: no row with that key
and that value), `mdb_del` removes no row and leaves every `_entry_counts` row
as it was, and, the engine reporting no error, it returns the not-found code
`SQLITE_NOTFOUND`.  A key or value passed with a null `mv_data` matches no
row. -/
theorem C6_del_missing_is_notfound (txn : MDB_txn) (dbi : MDB_dbi_inner) (key : MDB_val)
    (value : Option MDB_val) (t : Table) (hcw : txn.can_write = true)
    (ht : txn.db_conn.tables dbi.name = some t)
    (hno : ∀ r ∈ t.rows,
      ¬ (key = some r.key ∧ (dbi.dups = true → ∀ v, value = some v → v = some r.value))) :
    (mdb_del txn dbi key value).2.db_conn.tables = txn.db_conn.tables ∧
      (mdb_del txn dbi key value).2.db_conn.counts = txn.db_conn.counts ∧
      (Healthy txn.db_conn → (mdb_del txn dbi key value).1 = SQLITE_NOTFOUND) := by
  obtain ⟨rc, d, tr, he, hl, htr, hun, hnm, -, hok, hh⟩ := mdb_del_spec txn dbi key value hcw
  have hlen := delMatch_filter_nil dbi key value t.rows hno
  have hall : ∀ t', txn.db_conn.tables dbi.name = some t' →
      (t'.rows.filter (delMatch dbi key value)).length = 0 := by
    intro t' ht'
    obtain rfl : t = t' := by simpa [ht] using ht'
    exact hlen
  rw [he]
  refine ⟨(hun (hnm hall)).1, (hun (hnm hall)).2, fun h => ?_⟩
  simpa [hlen] using (hh h).2 t ht

theorem C6_del_missing_is_notfound_witness :
    (mdb_del ⟨sampleDb [⟨1, [1], [10]⟩] 1 [], [], true⟩ dupDbi (some [1])
        (some (some [11]))).2.db_conn.tables = (sampleDb [⟨1, [1], [10]⟩] 1 []).tables ∧
      (mdb_del ⟨sampleDb [⟨1, [1], [10]⟩] 1 [], [], true⟩ dupDbi (some [1])
        (some (some [11]))).2.db_conn.counts = (sampleDb [⟨1, [1], [10]⟩] 1 []).counts ∧
      (mdb_del ⟨sampleDb [⟨1, [1], [10]⟩] 1 [], [], true⟩ dupDbi (some [1])
        (some (some [11]))).1 = SQLITE_NOTFOUND :=
  have h := C6_del_missing_is_notfound ⟨sampleDb [⟨1, [1], [10]⟩] 1 [], [], true⟩ dupDbi
    (some [1]) (some (some [11])) ⟨false, [⟨1, [1], [10]⟩]⟩ rfl rfl (by simp [dupDbi])
  ⟨h.1, h.2.1, h.2.2 (by decide)⟩


/-- C5 fails on the code: in a writable transaction on the sub-database `t`
with duplicates, holding the row `([1], [10])` and an entry count of 1,
`mdb_put` of the new key `[2]` with the value `[20]` returns 0 and appends the
row, and the entry count is still 1, not 2: `add_dbi_entries` binds the name
with its terminator and its `UPDATE` matches no row of `_entry_counts`.  For
every transaction, handle, key and value, the entry count of the sub-database
is after `mdb_put` what it was before. -/
theorem C5_put_new_key_count_unchanged :
    ((mdb_put ⟨sampleDb [⟨1, [1], [10]⟩] 1 [], [], true⟩ dupDbi (some [2]) (some [20]) 0).1 = 0 ∧
      (mdb_put ⟨sampleDb [⟨1, [1], [10]⟩] 1 [], [], true⟩ dupDbi (some [2])
        (some [20]) 0).2.db_conn.tables [116] =
          some ⟨false, [⟨1, [1], [10]⟩, ⟨2, [2], [20]⟩]⟩ ∧
      (mdb_put ⟨sampleDb [⟨1, [1], [10]⟩] 1 [], [], true⟩ dupDbi (some [2])
        (some [20]) 0).2.db_conn.counts [116] = some 1) ∧
    ∀ (txn : MDB_txn) (dbi : MDB_dbi_inner) (key value : MDB_val) (flags : Nat),
      (mdb_put txn dbi key value flags).2.db_conn.counts dbi.name =
        txn.db_conn.counts dbi.name :=
  ⟨by decide, mdb_put_count_kept⟩

/-- C4 fails on the code in its last part: in a writable transaction on the
sub-database `t` without duplicates, holding the rows `([1], [10])` and
`([2], [20])` and an entry count of 2, `mdb_put` of the key `[1]` with the
value `[11]` returns 0, replaces the value of the first row in place and
leaves the second row and the entry count as they were; `mdb_get` of the key
`[1]`, called next with `*value` holding `[99]`, binds the key as a TEXT,
finds no row, returns `SQLITE_NOTFOUND` and leaves `*value` as it was. -/
theorem C4_get_after_replace_not_found :
    (mdb_put ⟨sampleDbUnique [⟨1, [1], [10]⟩, ⟨2, [2], [20]⟩] 2 [], [], true⟩ uniqueDbi
        (some [1]) (some [11]) 0).1 = 0 ∧
      (mdb_put ⟨sampleDbUnique [⟨1, [1], [10]⟩, ⟨2, [2], [20]⟩] 2 [], [], true⟩ uniqueDbi
        (some [1]) (some [11]) 0).2.db_conn.tables [116] =
          some ⟨true, [⟨1, [1], [11]⟩, ⟨2, [2], [20]⟩]⟩ ∧
      (mdb_put ⟨sampleDbUnique [⟨1, [1], [10]⟩, ⟨2, [2], [20]⟩] 2 [], [], true⟩ uniqueDbi
        (some [1]) (some [11]) 0).2.db_conn.counts [116] = some 2 ∧
      (mdb_get (mdb_put ⟨sampleDbUnique [⟨1, [1], [10]⟩, ⟨2, [2], [20]⟩] 2 [], [], true⟩
        uniqueDbi (some [1]) (some [11]) 0).2 uniqueDbi (some [1]) [99]).1 = SQLITE_NOTFOUND ∧
      (mdb_get (mdb_put ⟨sampleDbUnique [⟨1, [1], [10]⟩, ⟨2, [2], [20]⟩] 2 [], [], true⟩
        uniqueDbi (some [1]) (some [11]) 0).2 uniqueDbi (some [1]) [99]).2.2 = [99] := by
  decide

/-- C1 fails on the code: in a writable transaction on the empty sub-database
`t` without duplicates, `mdb_put` of the key `[1]` with the value `[10]`
returns 0 and stores the row; `mdb_get` of the key `[1]`, called next with
`*value` holding `[99]`, binds the key as a TEXT, finds no row among the BLOB
keys, returns `SQLITE_NOTFOUND` and leaves `*value` as it was.  For every
transaction, handle, key and value, `mdb_get` called after `mdb_put` returns a
non-zero code and leaves `*value` as it was. -/
theorem C1_get_after_put_not_found :
    ((mdb_put ⟨sampleDbUnique [] 0 [], [], true⟩ uniqueDbi (some [1]) (some [10]) 0).1 = 0 ∧
      (mdb_put ⟨sampleDbUnique [] 0 [], [], true⟩ uniqueDbi (some [1])
        (some [10]) 0).2.db_conn.tables [116] = some ⟨true, [⟨1, [1], [10]⟩]⟩ ∧
      (mdb_get (mdb_put ⟨sampleDbUnique [] 0 [], [], true⟩ uniqueDbi (some [1])
        (some [10]) 0).2 uniqueDbi (some [1]) [99]).1 = SQLITE_NOTFOUND ∧
      (mdb_get (mdb_put ⟨sampleDbUnique [] 0 [], [], true⟩ uniqueDbi (some [1])
        (some [10]) 0).2 uniqueDbi (some [1]) [99]).2.2 = [99]) ∧
    ∀ (txn : MDB_txn) (dbi : MDB_dbi_inner) (key value : MDB_val) (flags : Nat) (old : Bytes),
      (mdb_get (mdb_put txn dbi key value flags).2 dbi key old).1 ≠ 0 ∧
        (mdb_get (mdb_put txn dbi key value flags).2 dbi key old).2.2 = old := by
  refine ⟨by decide, fun txn dbi key value flags old => ?_⟩
  obtain ⟨rc, d, tr, he, -, -, hne, -⟩ :=
    mdb_get_spec (mdb_put txn dbi key value flags).2 dbi key old
  rw [he]
  exact ⟨hne, rfl⟩

/-- C3 fails on the code: in a writable transaction on the sub-database `t`
with duplicates, holding two rows under the key `[1]` and an entry count of 2,
`mdb_del` of `[1]` with no value returns 0 and removes both rows, and the
entry count is still 2; on the sub-database `t` without duplicates, holding
one row under `[1]` and an entry count of 1, `mdb_del` of `[1]` returns 0 and
removes the row, and the entry count is still 1.  `decrement_dbi_entries`
binds the name with its terminator and its `UPDATE` matches no row of
`_entry_counts`: for every transaction, handle, key and value, the entry count
of the sub-database is after `mdb_del` what it was before. -/
theorem C3_del_count_unchanged :
    ((mdb_del ⟨sampleDb [⟨1, [1], [10]⟩, ⟨2, [1], [11]⟩] 2 [], [], true⟩ dupDbi (some [1])
        none).1 = 0 ∧
      (mdb_del ⟨sampleDb [⟨1, [1], [10]⟩, ⟨2, [1], [11]⟩] 2 [], [], true⟩ dupDbi (some [1])
        none).2.db_conn.tables [116] = some ⟨false, []⟩ ∧
      (mdb_del ⟨sampleDb [⟨1, [1], [10]⟩, ⟨2, [1], [11]⟩] 2 [], [], true⟩ dupDbi (some [1])
        none).2.db_conn.counts [116] = some 2 ∧
      (mdb_del ⟨sampleDbUnique [⟨1, [1], [10]⟩] 1 [], [], true⟩ uniqueDbi (some [1])
        none).1 = 0 ∧
      (mdb_del ⟨sampleDbUnique [⟨1, [1], [10]⟩] 1 [], [], true⟩ uniqueDbi (some [1])
        none).2.db_conn.tables [116] = some ⟨true, []⟩ ∧
      (mdb_del ⟨sampleDbUnique [⟨1, [1], [10]⟩] 1 [], [], true⟩ uniqueDbi (some [1])
        none).2.db_conn.counts [116] = some 1) ∧
    ∀ (txn : MDB_txn) (dbi : MDB_dbi_inner) (key : MDB_val) (value : Option MDB_val),
      (mdb_del txn dbi key value).2.db_conn.counts dbi.name = txn.db_conn.counts dbi.name :=
  ⟨by decide, mdb_del_count_kept⟩

/-- C9: in `mdb_dbi_open`, `mdb_get`, `add_dbi_entries`, and `mdb_put` and
`mdb_del` in a writable transaction, with the engine calls the operation makes
taken in order and the `SQLITE_DONE` and `SQLITE_ROW` results of a step mapped
as the code maps them: the returned code is the first non-zero code of those
calls (so a finalize code is returned only when every earlier call gave 0),
after a non-zero code only finalize calls are made, and as many statements are
finalized as were prepared. -/
theorem C9_first_failure_returned (MDB_DUPSORT : Nat) (txn : MDB_txn) (name : Bytes)
    (oflags : Nat) (dbi : MDB_dbi_inner) (key value : MDB_val) (old : Bytes)
    (dv : Option MDB_val) (flags : Nat) (delta : Int) (hcw : txn.can_write = true) :
    TraceOk (callsSince txn.db_conn (mdb_dbi_open MDB_DUPSORT txn name oflags).2.1.db_conn)
        (mdb_dbi_open MDB_DUPSORT txn name oflags).1 ∧
      TraceOk (callsSince txn.db_conn (mdb_get txn dbi key old).2.1.db_conn)
        (mdb_get txn dbi key old).1 ∧
      TraceOk (callsSince txn.db_conn (add_dbi_entries txn.db_conn name delta).2)
        (add_dbi_entries txn.db_conn name delta).1 ∧
      TraceOk (callsSince txn.db_conn (mdb_put txn dbi key value flags).2.db_conn)
        (mdb_put txn dbi key value flags).1 ∧
      TraceOk (callsSince txn.db_conn (mdb_del txn dbi key dv).2.db_conn)
        (mdb_del txn dbi key dv).1 := by
  refine ⟨?_, ?_, ?_, ?_, ?_⟩
  · obtain ⟨rc, d, h, tr, he, -, -, hl, htr, -⟩ := mdb_dbi_open_spec MDB_DUPSORT txn name oflags
    rw [he]
    simpa [callsSince_append _ _ tr hl] using htr
  · obtain ⟨rc, d, tr, he, -, -, -, -, hl, htr⟩ := mdb_get_spec txn dbi key old
    rw [he]
    simpa [callsSince_append _ _ tr hl] using htr
  · obtain ⟨rc, d, tr, he, -, -, -, -, hl, htr, -⟩ :=
      add_dbi_entries_spec txn.db_conn name delta
    rw [he]
    simpa [callsSince_append _ _ tr hl] using htr
  · obtain ⟨rc, d, tr, he, hl, htr, -⟩ := mdb_put_spec txn dbi key value flags hcw
    rw [he]
    simpa [callsSince_append _ _ tr hl] using htr
  · obtain ⟨rc, d, tr, he, hl, htr, -⟩ := mdb_del_spec txn dbi key dv hcw
    rw [he]
    simpa [callsSince_append _ _ tr hl] using htr

theorem C9_first_failure_returned_witness :
    TraceOk (callsSince (sampleDb [] 0 [0, 0, 0, 7])
        (mdb_put ⟨sampleDb [] 0 [0, 0, 0, 7], [], true⟩ uniqueDbi (some [1])
          (some [10]) 0).2.db_conn)
      (mdb_put ⟨sampleDb [] 0 [0, 0, 0, 7], [], true⟩ uniqueDbi (some [1]) (some [10]) 0).1 ∧
      (mdb_put ⟨sampleDb [] 0 [0, 0, 0, 7], [], true⟩ uniqueDbi (some [1]) (some [10]) 0).1 = 7 :=
  ⟨(C9_first_failure_returned 4 ⟨sampleDb [] 0 [0, 0, 0, 7], [], true⟩ [116] 0 uniqueDbi
    (some [1]) (some [10]) [] none 0 1 rfl).2.2.2.1, by decide⟩


/-- C8 does not hold as stated: for a cursor of sub-database 0 over a store
whose first row has the key `[1, 0, 7]`, with tag 1, `MDB_FIRST` reaches that
row, a valid position, and returns `MDB_NOTFOUND` (here -30798), not
`MDB_CORRUPTED` (here -30796). -/
theorem C8_counterexample :
    (mdb_cursor_get_move (-30798) sampleDbiBytes sampleNamespaceKey (sampleCursor none) []
        .MDB_FIRST).2.2.Valid = true ∧
      (mdb_cursor_get_move (-30798) sampleDbiBytes sampleNamespaceKey (sampleCursor none) []
        .MDB_FIRST).2.2.key = [1, 0, 7] ∧
      key_tag [1, 0, 7] ≠ (sampleCursor none).dbi ∧
      (mdb_cursor_get (-30798) (-30796) sampleDbiBytes sampleNamespaceKey (sampleCursor none)
        [] [] .MDB_FIRST).1 = -30798 ∧
      (mdb_cursor_get (-30798) (-30796) sampleDbiBytes sampleNamespaceKey (sampleCursor none)
        [] [] .MDB_FIRST).1 ≠ -30796 := by
  decide

/-- C8, amended: in `mdb_cursor_get`, for every operation whose switch leaves
`result` 0 and the iterator at a valid position: if the key at that position
has at least 2 bytes and its 2-byte tag is not the cursor's dbi, the call
returns the not-found code `MDB_NOTFOUND` (the row is past the cursor's
sub-database) and writes no key, no value and no buffer; `MDB_CORRUPTED` is
what it returns when the key has fewer than 2 bytes. -/
theorem C8_foreign_tag_is_notfound (MDB_NOTFOUND MDB_CORRUPTED : Int)
    (dbi_bytes : Nat → Bytes) (namespace_key : Bytes → Nat → Bytes) (cursor : MDB_cursor)
    (key value : Bytes) (op : MDB_cursor_op) (hnf : MDB_NOTFOUND ≠ 0)
    (hco : MDB_CORRUPTED ≠ 0)
    (hm : (mdb_cursor_get_move MDB_NOTFOUND dbi_bytes namespace_key cursor key op).1 = 0)
    (hv : (mdb_cursor_get_move MDB_NOTFOUND dbi_bytes namespace_key cursor key op).2.2.Valid
      = true) :
    (2 ≤ (mdb_cursor_get_move MDB_NOTFOUND dbi_bytes namespace_key cursor key op).2.2.key.length →
      key_tag (mdb_cursor_get_move MDB_NOTFOUND dbi_bytes namespace_key cursor key op).2.2.key
        ≠ cursor.dbi →
      (mdb_cursor_get MDB_NOTFOUND MDB_CORRUPTED dbi_bytes namespace_key cursor key value op).1
          = MDB_NOTFOUND ∧
        (mdb_cursor_get MDB_NOTFOUND MDB_CORRUPTED dbi_bytes namespace_key cursor key value
          op).2.2 = (key, value) ∧
        (mdb_cursor_get MDB_NOTFOUND MDB_CORRUPTED dbi_bytes namespace_key cursor key value
          op).2.1.txn = cursor.txn) ∧
    ((mdb_cursor_get_move MDB_NOTFOUND dbi_bytes namespace_key cursor key op).2.2.key.length < 2 →
      (mdb_cursor_get MDB_NOTFOUND MDB_CORRUPTED dbi_bytes namespace_key cursor key value op).1
        = MDB_CORRUPTED) := by
  unfold mdb_cursor_get
  generalize mdb_cursor_get_move MDB_NOTFOUND dbi_bytes namespace_key cursor key op = m at hm hv ⊢
  obtain ⟨r, ao, it⟩ := m
  simp only at hm hv
  subst hm
  constructor
  · intro hlen htag
    simp only at hlen htag
    have hlen' : ¬ it.key.length < 2 := by omega
    simp [hv, hlen', htag, hnf]
  · intro hlen
    simp only at hlen
    simp [hv, hlen, hco]

theorem C8_foreign_tag_is_notfound_witness :
    (mdb_cursor_get (-30798) (-30796) sampleDbiBytes sampleNamespaceKey (sampleCursor none)
      [1] [] .MDB_SET_RANGE).1 = -30798 :=
  ((C8_foreign_tag_is_notfound (-30798) (-30796) sampleDbiBytes sampleNamespaceKey
    (sampleCursor none) [1] [] .MDB_SET_RANGE (by decide) (by decide) (by decide)
    (by decide)).1 (by decide) (by decide)).1

/-- C10: `mdb_cursor_get` with `MDB_NEXT`: on a cursor that has not been
positioned it returns the not-found code, writes no key, no value and no
buffer and leaves the cursor as it was; on a cursor standing on a row it moves
the iterator to the next position in key order (and returns that row when it
is a well-formed row of the cursor's sub-database and the iterator status is
0); on an exhausted cursor it returns the not-found code and the iterator is
not advanced. -/
theorem C10_next (MDB_NOTFOUND MDB_CORRUPTED : Int) (dbi_bytes : Nat → Bytes)
    (namespace_key : Bytes → Nat → Bytes) (cursor : MDB_cursor) (key value : Bytes)
    (hnf : MDB_NOTFOUND ≠ 0) :
    (cursor.it.pos = none →
      mdb_cursor_get MDB_NOTFOUND MDB_CORRUPTED dbi_bytes namespace_key cursor key value
        .MDB_NEXT = (MDB_NOTFOUND, cursor, key, value)) ∧
    (∀ i, cursor.it.pos = some i → i < cursor.it.entries.length →
      (mdb_cursor_get MDB_NOTFOUND MDB_CORRUPTED dbi_bytes namespace_key cursor key value
        .MDB_NEXT).2.1.it = { cursor.it with pos := some (i + 1) } ∧
      ∀ k v, cursor.it.entries.get? (i + 1) = some (k, v) → 2 ≤ k.length →
        key_tag k = cursor.dbi → cursor.it.status = 0 →
        (mdb_cursor_get MDB_NOTFOUND MDB_CORRUPTED dbi_bytes namespace_key cursor key value
          .MDB_NEXT).1 = 0 ∧
        (mdb_cursor_get MDB_NOTFOUND MDB_CORRUPTED dbi_bytes namespace_key cursor key value
          .MDB_NEXT).2.2 = (k.drop 2, v)) ∧
    (∀ i, cursor.it.pos = some i → cursor.it.entries.length ≤ i →
      mdb_cursor_get MDB_NOTFOUND MDB_CORRUPTED dbi_bytes namespace_key cursor key value
        .MDB_NEXT = (MDB_NOTFOUND, cursor, key, value)) := by
  refine ⟨fun hp => ?_, fun i hp hi => ⟨?_, fun k v hkv hlen htag hst => ?_⟩, fun i hp hi => ?_⟩
  · simp [mdb_cursor_get, mdb_cursor_get_move, Iterator.Valid, hp, hnf]
  · simp [mdb_cursor_get, mdb_cursor_get_move, Iterator.Valid, Iterator.Next, hp, hi]
  · have hi1 : i + 1 < cursor.it.entries.length := by
      rcases Nat.lt_or_ge (i + 1) cursor.it.entries.length with h | h
      · exact h
      · rw [List.get?_eq_none.mpr h] at hkv
        exact absurd hkv (by simp)
    have hlen' : ¬ k.length < 2 := by omega
    have hget : cursor.it.entries[i + 1] = (k, v) := by
      rw [List.get?_eq_getElem?, List.getElem?_eq_getElem hi1] at hkv
      exact Option.some.inj hkv
    simp [mdb_cursor_get, mdb_cursor_get_move, Iterator.Valid, Iterator.Next, Iterator.key,
      Iterator.value, hp, hi, hi1, hget, hlen', htag, hst]
  · have hi' : ¬ i < cursor.it.entries.length := by omega
    simp [mdb_cursor_get, mdb_cursor_get_move, Iterator.Valid, hp, hi', hnf]

theorem C10_next_witness :
    (mdb_cursor_get (-30798) (-30796) sampleDbiBytes sampleNamespaceKey (sampleCursorOwn none)
        [] [] .MDB_NEXT = (-30798, sampleCursorOwn none, [], [])) ∧
      (mdb_cursor_get (-30798) (-30796) sampleDbiBytes sampleNamespaceKey
        (sampleCursorOwn (some 0)) [] [] .MDB_NEXT).2.1.it =
          { (sampleCursorOwn (some 0)).it with pos := some 1 } ∧
      (mdb_cursor_get (-30798) (-30796) sampleDbiBytes sampleNamespaceKey
        (sampleCursorOwn (some 0)) [] [] .MDB_NEXT).2.2 = ([8], [10]) ∧
      (mdb_cursor_get (-30798) (-30796) sampleDbiBytes sampleNamespaceKey
        (sampleCursorOwn (some 2)) [] [] .MDB_NEXT = (-30798, sampleCursorOwn (some 2), [], [])) :=
  ⟨(C10_next (-30798) (-30796) sampleDbiBytes sampleNamespaceKey (sampleCursorOwn none) [] []
      (by decide)).1 rfl,
    ((C10_next (-30798) (-30796) sampleDbiBytes sampleNamespaceKey (sampleCursorOwn (some 0)) []
      [] (by decide)).2.1 0 rfl (by decide)).1,
    (((C10_next (-30798) (-30796) sampleDbiBytes sampleNamespaceKey (sampleCursorOwn (some 0)) []
      [] (by decide)).2.1 0 rfl (by decide)).2 [1, 0, 8] [10] rfl (by decide) (by decide)
      rfl).2,
    (C10_next (-30798) (-30796) sampleDbiBytes sampleNamespaceKey (sampleCursorOwn (some 2)) []
      [] (by decide)).2.2 2 rfl (by decide)⟩


end SqliteLmdb
